import Mathlib

/-! # Mercury runtime type information: accessors of `runtime/mercury_type_info.h`

A shallow embedding of the access macros of `mercury_type_info.h` and the
properties of them that the specification of the runtime type-information
layer states.

Machine model.

`Word` is the unsigned integer type of pointer size and `Integer` the signed
one (`mercury_types.h`).  The size of a word in bytes is the parameter `W`
of every definition, so that a word has `8 * W` bits.

* a `Word` value is a natural number below `wordMod W`;
* an `Integer` value is an integer in `[-2^(8W-1), 2^(8W-1))`;
* `toWord W x` is the cast `(Word) x` and `toInteger W x` the cast
  `(Integer) x` (two's complement);
* memory is a map from byte addresses to the words stored there;
  `wordAddr W p i` is the C expression `(Word *) p + i` in a flat address
  space of `8 * W` bits and `wordIndex W mem p i` is `((Word *) p)[i]`;
* a struct is accessed through the byte offsets of its fields, with the size
  of an `int` as the parameter `sizeofInt`.

Functions declared but not defined in the header.

`MR_make_type_info`, `MR_collapse_equivalences`, `MR_compare_type_info` and
`MR_categorize_data` are defined in `mercury_type_info.c`.  They are modelled
from the specification, over descriptors that are trees (`Descriptor`) and a
table of constructor descriptors (`Registry`).
-/

namespace Mercury

/-! ## Machine words -/

/-- Number of bits of a `Word` whose size is `W` bytes. -/
def wordBits (W : Nat) : Nat := 8 * W

/-- Number of distinct values of a `Word`: `2 ^ wordBits`. -/
def wordMod (W : Nat) : Nat := 2 ^ wordBits W

/-- The cast `(Word) x`: reduction modulo `2 ^ wordBits` to an unsigned value. -/
def toWord (W : Nat) (x : Int) : Nat := (x % (wordMod W : Int)).toNat

/-- The cast `(Integer) x`: the two's complement signed reading of the low
`wordBits` bits of `x`. -/
def toInteger (W : Nat) (x : Int) : Int :=
  if (toWord W x : Int) < (wordMod W : Int) / 2 then (toWord W x : Int)
  else (toWord W x : Int) - (wordMod W : Int)

/-- Memory: the word stored at each byte address. -/
abbrev Mem := Nat → Nat

/-- The C expression `(Word *) p + i`: the address `i` words after the
address `p`, in a flat address space of `wordBits` bits. -/
def wordAddr (W : Nat) (p : Nat) (i : Int) : Nat :=
  toWord W ((p : Int) + (W : Int) * i)

/-- The C expression `((Word *) p)[i]`: the word stored `i` words after the
address `p`. -/
def wordIndex (W : Nat) (mem : Mem) (p : Nat) (i : Int) : Nat :=
  mem (wordAddr W p i)

/-- The words `ws` are stored in consecutive word slots starting at address
`p`, and each of them is a machine word. -/
def laidOut (W : Nat) (mem : Mem) (p : Nat) (ws : List Nat) : Prop :=
  ∀ i, i < ws.length →
    wordIndex W mem p (i : Int) = ws.getD i 0 ∧ ws.getD i 0 < wordMod W

/-- An integer that an `Integer` can hold: `-2^(8W-1) ≤ x < 2^(8W-1)`. -/
def integerRepresentable (W : Nat) (x : Int) : Prop :=
  -((wordMod W : Int) / 2) ≤ x ∧ x < (wordMod W : Int) / 2

/-! ## Field offsets of type_ctor_infos and type_infos (lines 34-68) -/

/-- Constant `#define OFFSET_FOR_COUNT 0` -/
def OFFSET_FOR_COUNT : Int := 0
/-- Constant `#define OFFSET_FOR_UNIFY_PRED 1` -/
def OFFSET_FOR_UNIFY_PRED : Int := 1
/-- Constant `#define OFFSET_FOR_INDEX_PRED 2` -/
def OFFSET_FOR_INDEX_PRED : Int := 2
/-- Constant `#define OFFSET_FOR_COMPARE_PRED 3` -/
def OFFSET_FOR_COMPARE_PRED : Int := 3
/-- Constant `#define OFFSET_FOR_BASE_TYPE_LAYOUT 4` -/
def OFFSET_FOR_BASE_TYPE_LAYOUT : Int := 4
/-- Constant `#define OFFSET_FOR_BASE_TYPE_FUNCTORS 5` -/
def OFFSET_FOR_BASE_TYPE_FUNCTORS : Int := 5
/-- Constant `#define OFFSET_FOR_TYPE_MODULE_NAME 7` -/
def OFFSET_FOR_TYPE_MODULE_NAME : Int := 7
/-- Constant `#define OFFSET_FOR_TYPE_NAME 8` -/
def OFFSET_FOR_TYPE_NAME : Int := 8

/-- Constant `#define OFFSET_FOR_ARG_TYPE_INFOS 1` -/
def OFFSET_FOR_ARG_TYPE_INFOS : Int := 1
/-- Constant `#define TYPEINFO_OFFSET_FOR_PRED_ARITY 1` -/
def TYPEINFO_OFFSET_FOR_PRED_ARITY : Int := 1
/-- Constant `#define TYPEINFO_OFFSET_FOR_PRED_ARGS 2` -/
def TYPEINFO_OFFSET_FOR_PRED_ARGS : Int := 2

/-! ## Handwritten type_ctor_layouts (lines 153-213) -/

/-- The macro `make_typelayout(Tag, Value)`, as the list of initialisers it
expands to.  With `TAGBITS >= 2` it is the single word
`mkword(mktag(Tag), (Value))`, otherwise the two words `Tag` and `Value`.
`mkword` and `mktag` come from `mercury_tags.h` and are parameters here. -/
def make_typelayout (TAGBITS : Nat) (mkword : Nat → Nat → Nat) (mktag : Nat → Nat)
    (Tag Value : Nat) : List Nat :=
  if TAGBITS ≥ 2 then [mkword (mktag Tag) Value] else [Tag, Value]

/-- The macro `make_typelayout_for_all_tags(Tag, Value)`, as the list of the
`make_typelayout` expansions it consists of; `none` is the `#error` of a
`TAGBITS` for which the macro is not defined. -/
def make_typelayout_for_all_tags (TAGBITS : Nat) (mkword : Nat → Nat → Nat)
    (mktag : Nat → Nat) (Tag Value : Nat) : Option (List (List Nat)) :=
  if TAGBITS = 0 then
    some [make_typelayout TAGBITS mkword mktag Tag Value]
  else if TAGBITS = 1 then
    some [make_typelayout TAGBITS mkword mktag Tag Value,
          make_typelayout TAGBITS mkword mktag Tag Value]
  else if TAGBITS = 2 then
    some [make_typelayout TAGBITS mkword mktag Tag Value,
          make_typelayout TAGBITS mkword mktag Tag Value,
          make_typelayout TAGBITS mkword mktag Tag Value,
          make_typelayout TAGBITS mkword mktag Tag Value]
  else if TAGBITS = 3 then
    some [make_typelayout TAGBITS mkword mktag Tag Value,
          make_typelayout TAGBITS mkword mktag Tag Value,
          make_typelayout TAGBITS mkword mktag Tag Value,
          make_typelayout TAGBITS mkword mktag Tag Value,
          make_typelayout TAGBITS mkword mktag Tag Value,
          make_typelayout TAGBITS mkword mktag Tag Value,
          make_typelayout TAGBITS mkword mktag Tag Value,
          make_typelayout TAGBITS mkword mktag Tag Value]
  else none

/-! ## Type variables and the higher-order encoding (lines 263-309) -/

/-- Constant `#define TYPE_CTOR_LAYOUT_MAX_VARINT 1024` -/
def TYPE_CTOR_LAYOUT_MAX_VARINT : Nat := 1024

/-- Constant `#define TYPEINFO_IS_VARIABLE(T) ( (Word) T <= TYPE_CTOR_LAYOUT_MAX_VARINT )` -/
def TYPEINFO_IS_VARIABLE (W : Nat) (T : Int) : Bool :=
  decide (toWord W T ≤ TYPE_CTOR_LAYOUT_MAX_VARINT)

/-- Addresses of the two shared higher-order type_ctor_infos, which are
defined outside this header. -/
structure Globals where
  /-- Address of the type_ctor_info of `pred/0`. -/
  mercury_data___type_ctor_info_pred_0 : Nat
  /-- Address of the type_ctor_info of `func/0`. -/
  mercury_data___type_ctor_info_func_0 : Nat

/-- Macro `MR_TYPE_CTOR_INFO_HO_PRED`: `(const Word *) &mercury_data___type_ctor_info_pred_0` -/
def MR_TYPE_CTOR_INFO_HO_PRED (g : Globals) : Nat :=
  g.mercury_data___type_ctor_info_pred_0

/-- Macro `MR_TYPE_CTOR_INFO_HO_FUNC`: `(const Word *) &mercury_data___type_ctor_info_func_0` -/
def MR_TYPE_CTOR_INFO_HO_FUNC (g : Globals) : Nat :=
  g.mercury_data___type_ctor_info_func_0

/-- Macro `MR_TYPE_CTOR_INFO_IS_HO_PRED(T)`: `(T == MR_TYPE_CTOR_INFO_HO_PRED)` -/
def MR_TYPE_CTOR_INFO_IS_HO_PRED (g : Globals) (T : Nat) : Bool :=
  T == MR_TYPE_CTOR_INFO_HO_PRED g

/-- Macro `MR_TYPE_CTOR_INFO_IS_HO_FUNC(T)`: `(T == MR_TYPE_CTOR_INFO_HO_FUNC)` -/
def MR_TYPE_CTOR_INFO_IS_HO_FUNC (g : Globals) (T : Nat) : Bool :=
  T == MR_TYPE_CTOR_INFO_HO_FUNC g

/-- Macro `MR_TYPE_CTOR_INFO_IS_HO(T)`:
`(T == MR_TYPE_CTOR_INFO_HO_FUNC || T == MR_TYPE_CTOR_INFO_HO_PRED)` -/
def MR_TYPE_CTOR_INFO_IS_HO (g : Globals) (T : Nat) : Bool :=
  T == MR_TYPE_CTOR_INFO_HO_FUNC g || T == MR_TYPE_CTOR_INFO_HO_PRED g

/-- Macro `MR_TYPECTOR_IS_HIGHER_ORDER(T)`: `( (Word) T <= TYPE_CTOR_LAYOUT_MAX_VARINT )` -/
def MR_TYPECTOR_IS_HIGHER_ORDER (W : Nat) (T : Int) : Bool :=
  decide (toWord W T ≤ TYPE_CTOR_LAYOUT_MAX_VARINT)

/-- Macro `MR_TYPECTOR_MAKE_PRED(Arity)`: `( (Word) ((Integer) (Arity) * 2) )`; the
product is computed in the type `Integer`. -/
def MR_TYPECTOR_MAKE_PRED (W : Nat) (Arity : Int) : Nat :=
  toWord W (toInteger W (toInteger W Arity * 2))

/-- Macro `MR_TYPECTOR_MAKE_FUNC(Arity)`: `( (Word) ((Integer) (Arity) * 2 + 1) )` -/
def MR_TYPECTOR_MAKE_FUNC (W : Nat) (Arity : Int) : Nat :=
  toWord W (toInteger W (toInteger W (toInteger W Arity * 2) + 1))

/-- Macro `MR_TYPECTOR_GET_HOT_ARITY(T)`: `((Integer) (T) / 2 )`, with the division
of C, which truncates towards zero. -/
def MR_TYPECTOR_GET_HOT_ARITY (W : Nat) (T : Int) : Int :=
  Int.tdiv (toInteger W T) 2

/-- Macro `MR_TYPECTOR_GET_HOT_NAME(T)`:
`((ConstString) ( ( ((Integer) (T)) % 2 ) ? "func" : "pred" ))`, with the
remainder of C, which has the sign of the dividend. -/
def MR_TYPECTOR_GET_HOT_NAME (W : Nat) (T : Int) : String :=
  if Int.tmod (toInteger W T) 2 ≠ 0 then "func" else "pred"

/-- Macro `MR_TYPECTOR_GET_HOT_MODULE_NAME(T)`: `((ConstString) "builtin")` -/
def MR_TYPECTOR_GET_HOT_MODULE_NAME (_T : Int) : String := "builtin"

/-- Macro `MR_TYPECTOR_GET_HOT_TYPE_CTOR_INFO(T)`: the address, as a `Word`, of
`mercury_data___type_ctor_info_func_0` when `((Integer) (T)) % 2` is non-zero
and of `mercury_data___type_ctor_info_pred_0` otherwise. -/
def MR_TYPECTOR_GET_HOT_TYPE_CTOR_INFO (W : Nat) (g : Globals) (T : Int) : Nat :=
  toWord W (if Int.tmod (toInteger W T) 2 ≠ 0
    then (g.mercury_data___type_ctor_info_func_0 : Int)
    else (g.mercury_data___type_ctor_info_pred_0 : Int))

/-! ## type_ctor_functors of discriminated unions (lines 507-521) -/

/-- Constant `#define MR_TYPE_CTOR_FUNCTORS_OFFSET_FOR_INDICATOR ((Integer) 0)` -/
def MR_TYPE_CTOR_FUNCTORS_OFFSET_FOR_INDICATOR : Int := 0

/-- Macro `MR_TYPE_CTOR_FUNCTORS_INDICATOR(Functors)`:
`((Functors)[MR_TYPE_CTOR_FUNCTORS_OFFSET_FOR_INDICATOR])` -/
def MR_TYPE_CTOR_FUNCTORS_INDICATOR (W : Nat) (mem : Mem) (Functors : Nat) : Nat :=
  wordIndex W mem Functors MR_TYPE_CTOR_FUNCTORS_OFFSET_FOR_INDICATOR

/-- Constant `#define MR_TYPE_CTOR_FUNCTORS_DU ((Integer) 0)` -/
def MR_TYPE_CTOR_FUNCTORS_DU : Int := 0

/-- Constant `#define MR_TYPE_CTOR_FUNCTORS_DU_OFFSET_FOR_NUM_FUNCTORS ((Integer) 1)` -/
def MR_TYPE_CTOR_FUNCTORS_DU_OFFSET_FOR_NUM_FUNCTORS : Int := 1

/-- Constant `#define MR_TYPE_CTOR_FUNCTORS_DU_OFFSET_FOR_FUNCTORS_VECTOR ((Integer) 2)` -/
def MR_TYPE_CTOR_FUNCTORS_DU_OFFSET_FOR_FUNCTORS_VECTOR : Int := 2

/-- Macro `MR_TYPE_CTOR_FUNCTORS_DU_NUM_FUNCTORS(Functors)`:
`((Functors)[MR_TYPE_CTOR_FUNCTORS_DU_OFFSET_FOR_NUM_FUNCTORS])` -/
def MR_TYPE_CTOR_FUNCTORS_DU_NUM_FUNCTORS (W : Nat) (mem : Mem) (Functors : Nat) : Nat :=
  wordIndex W mem Functors MR_TYPE_CTOR_FUNCTORS_DU_OFFSET_FOR_NUM_FUNCTORS

/-- Macro `MR_TYPE_CTOR_FUNCTORS_DU_FUNCTOR_N(Functor, N)`:
`((Word *) ((Functor)[MR_TYPE_CTOR_FUNCTORS_DU_OFFSET_FOR_FUNCTORS_VECTOR + N]))`;
the index is computed in the type `Integer`. -/
def MR_TYPE_CTOR_FUNCTORS_DU_FUNCTOR_N (W : Nat) (mem : Mem) (Functor : Nat) (N : Int) : Nat :=
  wordIndex W mem Functor
    (toInteger W (MR_TYPE_CTOR_FUNCTORS_DU_OFFSET_FOR_FUNCTORS_VECTOR + toInteger W N))

/-! ## Simple vectors (lines 594-616) -/

/-- Constant `#define MR_TYPE_CTOR_LAYOUT_SIMPLE_VECTOR_OFFSET_FOR_ARITY ((Integer) 0)` -/
def MR_TYPE_CTOR_LAYOUT_SIMPLE_VECTOR_OFFSET_FOR_ARITY : Int := 0
/-- Constant `#define MR_TYPE_CTOR_LAYOUT_SIMPLE_VECTOR_OFFSET_FOR_ARGS ((Integer) 1)` -/
def MR_TYPE_CTOR_LAYOUT_SIMPLE_VECTOR_OFFSET_FOR_ARGS : Int := 1
/-- Constant `#define MR_TYPE_CTOR_LAYOUT_SIMPLE_VECTOR_OFFSET_FOR_FUNCTOR_NAME ((Integer) 1)`
(an offset from the end of the arguments) -/
def MR_TYPE_CTOR_LAYOUT_SIMPLE_VECTOR_OFFSET_FOR_FUNCTOR_NAME : Int := 1
/-- Constant `#define MR_TYPE_CTOR_LAYOUT_SIMPLE_VECTOR_OFFSET_FOR_FUNCTOR_TAG ((Integer) 2)`
(an offset from the end of the arguments) -/
def MR_TYPE_CTOR_LAYOUT_SIMPLE_VECTOR_OFFSET_FOR_FUNCTOR_TAG : Int := 2

/-- Macro `MR_TYPE_CTOR_LAYOUT_SIMPLE_VECTOR_ARITY(V)`:
`((V)[MR_TYPE_CTOR_LAYOUT_SIMPLE_VECTOR_OFFSET_FOR_ARITY])` -/
def MR_TYPE_CTOR_LAYOUT_SIMPLE_VECTOR_ARITY (W : Nat) (mem : Mem) (V : Nat) : Nat :=
  wordIndex W mem V MR_TYPE_CTOR_LAYOUT_SIMPLE_VECTOR_OFFSET_FOR_ARITY

/-- Macro `MR_TYPE_CTOR_LAYOUT_SIMPLE_VECTOR_ARGS(V)`:
`(V + MR_TYPE_CTOR_LAYOUT_SIMPLE_VECTOR_OFFSET_FOR_ARGS)`, pointer arithmetic
on a `Word *`: the address of the slot one word after `V`. -/
def MR_TYPE_CTOR_LAYOUT_SIMPLE_VECTOR_ARGS (W : Nat) (V : Nat) : Nat :=
  wordAddr W V MR_TYPE_CTOR_LAYOUT_SIMPLE_VECTOR_OFFSET_FOR_ARGS

/-- Macro `MR_TYPE_CTOR_LAYOUT_SIMPLE_VECTOR_FUNCTOR_NAME(V)`:
`((String) ((V)[MR_TYPE_CTOR_LAYOUT_SIMPLE_VECTOR_ARITY(V) + ..._OFFSET_FOR_FUNCTOR_NAME]))`;
the index is the sum of a `Word` and an `Integer`, computed as a `Word`. -/
def MR_TYPE_CTOR_LAYOUT_SIMPLE_VECTOR_FUNCTOR_NAME (W : Nat) (mem : Mem) (V : Nat) : Nat :=
  wordIndex W mem V
    (toWord W ((MR_TYPE_CTOR_LAYOUT_SIMPLE_VECTOR_ARITY W mem V : Int) +
      MR_TYPE_CTOR_LAYOUT_SIMPLE_VECTOR_OFFSET_FOR_FUNCTOR_NAME))

/-- Macro `MR_TYPE_CTOR_LAYOUT_SIMPLE_VECTOR_TAG(V)`:
`((Word) ((V)[MR_TYPE_CTOR_LAYOUT_SIMPLE_VECTOR_ARITY(V) + ..._OFFSET_FOR_FUNCTOR_TAG]))` -/
def MR_TYPE_CTOR_LAYOUT_SIMPLE_VECTOR_TAG (W : Nat) (mem : Mem) (V : Nat) : Nat :=
  toWord W (wordIndex W mem V
    (toWord W ((MR_TYPE_CTOR_LAYOUT_SIMPLE_VECTOR_ARITY W mem V : Int) +
      MR_TYPE_CTOR_LAYOUT_SIMPLE_VECTOR_OFFSET_FOR_FUNCTOR_TAG)))

/-! ## Retrieving things from type_infos and type_ctor_infos (lines 682-709) -/

/-- Macro `MR_TYPEINFO_GET_TYPE_CTOR_INFO(TypeInfo)`:
`((*TypeInfo) ? (Word *) *TypeInfo : (Word *) (Word) TypeInfo)` -/
def MR_TYPEINFO_GET_TYPE_CTOR_INFO (W : Nat) (mem : Mem) (TypeInfo : Nat) : Nat :=
  if wordIndex W mem TypeInfo 0 ≠ 0 then wordIndex W mem TypeInfo 0
  else toWord W (TypeInfo : Int)

/-- Macro `MR_TYPEINFO_GET_HIGHER_ARITY(TypeInfo)`:
`((Integer) (Word *) (TypeInfo)[TYPEINFO_OFFSET_FOR_PRED_ARITY])` -/
def MR_TYPEINFO_GET_HIGHER_ARITY (W : Nat) (mem : Mem) (TypeInfo : Nat) : Int :=
  toInteger W (wordIndex W mem TypeInfo TYPEINFO_OFFSET_FOR_PRED_ARITY)

/-- Macro `MR_TYPE_CTOR_INFO_GET_TYPE_CTOR_FUNCTORS(BaseTypeInfo)`:
`((Word *) (BaseTypeInfo)[OFFSET_FOR_BASE_TYPE_FUNCTORS])` -/
def MR_TYPE_CTOR_INFO_GET_TYPE_CTOR_FUNCTORS (W : Nat) (mem : Mem) (BaseTypeInfo : Nat) : Nat :=
  wordIndex W mem BaseTypeInfo OFFSET_FOR_BASE_TYPE_FUNCTORS

/-- Macro `MR_TYPE_CTOR_INFO_GET_TYPE_CTOR_LAYOUT(BaseTypeInfo)`:
`((Word *) (BaseTypeInfo)[OFFSET_FOR_BASE_TYPE_LAYOUT])` -/
def MR_TYPE_CTOR_INFO_GET_TYPE_CTOR_LAYOUT (W : Nat) (mem : Mem) (BaseTypeInfo : Nat) : Nat :=
  wordIndex W mem BaseTypeInfo OFFSET_FOR_BASE_TYPE_LAYOUT

/-- Macro `MR_TYPE_CTOR_INFO_GET_TYPE_CTOR_LAYOUT_ENTRY(BaseTypeInfo, Tag)`:
`(MR_TYPE_CTOR_INFO_GET_TYPE_CTOR_LAYOUT(BaseTypeInfo)[(Tag)])` -/
def MR_TYPE_CTOR_INFO_GET_TYPE_CTOR_LAYOUT_ENTRY (W : Nat) (mem : Mem) (BaseTypeInfo : Nat)
    (Tag : Int) : Nat :=
  wordIndex W mem (MR_TYPE_CTOR_INFO_GET_TYPE_CTOR_LAYOUT W mem BaseTypeInfo) Tag

/-- Macro `MR_TYPE_CTOR_INFO_GET_TYPE_ARITY(BaseTypeInfo)`:
`(((Word *) (BaseTypeInfo))[OFFSET_FOR_COUNT])` -/
def MR_TYPE_CTOR_INFO_GET_TYPE_ARITY (W : Nat) (mem : Mem) (BaseTypeInfo : Nat) : Nat :=
  wordIndex W mem BaseTypeInfo OFFSET_FOR_COUNT

/-- Macro `MR_TYPE_CTOR_INFO_GET_TYPE_NAME(BaseTypeInfo)`:
`(((String *) (BaseTypeInfo))[OFFSET_FOR_TYPE_NAME])`; a `String` is a pointer
and has the size of a word. -/
def MR_TYPE_CTOR_INFO_GET_TYPE_NAME (W : Nat) (mem : Mem) (BaseTypeInfo : Nat) : Nat :=
  wordIndex W mem BaseTypeInfo OFFSET_FOR_TYPE_NAME

/-- Macro `MR_TYPE_CTOR_INFO_GET_TYPE_MODULE_NAME(BaseTypeInfo)`:
`(((String *) (BaseTypeInfo))[OFFSET_FOR_TYPE_MODULE_NAME])` -/
def MR_TYPE_CTOR_INFO_GET_TYPE_MODULE_NAME (W : Nat) (mem : Mem) (BaseTypeInfo : Nat) : Nat :=
  wordIndex W mem BaseTypeInfo OFFSET_FOR_TYPE_MODULE_NAME

/-! ## typeclass_infos (lines 805-825) -/

/-- Macro `MR_typeclass_info_instance_arity(tci)`: `((Integer)(*(Word **)(tci))[0])` -/
def MR_typeclass_info_instance_arity (W : Nat) (mem : Mem) (tci : Nat) : Int :=
  toInteger W (wordIndex W mem (wordIndex W mem tci 0) 0)

/-- Macro `MR_typeclass_info_class_method(tci, n)`: `((Code *)(*(Word **)tci)[(n)])` -/
def MR_typeclass_info_class_method (W : Nat) (mem : Mem) (tci : Nat) (n : Int) : Nat :=
  wordIndex W mem (wordIndex W mem tci 0) n

/-- Macro `MR_typeclass_info_arg_typeclass_info(tci, n)`: `(((Word *)(tci))[(n)])` -/
def MR_typeclass_info_arg_typeclass_info (W : Nat) (mem : Mem) (tci : Nat) (n : Int) : Nat :=
  wordIndex W mem tci n

/-- Macro `MR_typeclass_info_superclass_info(tci, n)`:
`(((Word *)(tci))[MR_typeclass_info_instance_arity(tci) + (n)])`; the index is
computed in the type `Integer`. -/
def MR_typeclass_info_superclass_info (W : Nat) (mem : Mem) (tci : Nat) (n : Int) : Nat :=
  wordIndex W mem tci (toInteger W (MR_typeclass_info_instance_arity W mem tci + toInteger W n))

/-- Macro `MR_typeclass_info_type_info(tci, n)`:
`(((Word *)(tci))[MR_typeclass_info_instance_arity(tci) + (n)])` -/
def MR_typeclass_info_type_info (W : Nat) (mem : Mem) (tci : Nat) (n : Int) : Nat :=
  wordIndex W mem tci (toInteger W (MR_typeclass_info_instance_arity W mem tci + toInteger W n))

/-! ## Comparison results (lines 72-78) -/

/-- Constant `#define COMPARE_EQUAL 0` -/
def COMPARE_EQUAL : Int := 0
/-- Constant `#define COMPARE_LESS 1` -/
def COMPARE_LESS : Int := 1
/-- Constant `#define COMPARE_GREATER 2` -/
def COMPARE_GREATER : Int := 2

/-! ## Offsets of functors in type_layouts, and of `univ` (lines 311-340) -/

/-- Constant `#define TYPE_CTOR_LAYOUT_CONST_FUNCTOR_OFFSET 2` -/
def TYPE_CTOR_LAYOUT_CONST_FUNCTOR_OFFSET : Int := 2
/-- Constant `#define TYPE_CTOR_LAYOUT_ENUM_FUNCTOR_OFFSET 2` -/
def TYPE_CTOR_LAYOUT_ENUM_FUNCTOR_OFFSET : Int := 2
/-- Constant `#define TYPE_CTOR_LAYOUT_SIMPLE_FUNCTOR_OFFSET 1` -/
def TYPE_CTOR_LAYOUT_SIMPLE_FUNCTOR_OFFSET : Int := 1
/-- Constant `#define TYPE_CTOR_LAYOUT_SIMPLE_ARITY_OFFSET 0` -/
def TYPE_CTOR_LAYOUT_SIMPLE_ARITY_OFFSET : Int := 0
/-- Constant `#define TYPE_CTOR_LAYOUT_SIMPLE_ARGS_OFFSET 1` -/
def TYPE_CTOR_LAYOUT_SIMPLE_ARGS_OFFSET : Int := 1

/-- Constant `#define UNIV_OFFSET_FOR_TYPEINFO 0` -/
def UNIV_OFFSET_FOR_TYPEINFO : Int := 0
/-- Constant `#define UNIV_OFFSET_FOR_DATA 1` -/
def UNIV_OFFSET_FOR_DATA : Int := 1

/-! ## Values of the functors indicator (lines 495-504) -/

/-- Constant `#define MR_TYPE_CTOR_FUNCTORS_ENUM ((Integer) 1)` -/
def MR_TYPE_CTOR_FUNCTORS_ENUM : Int := 1
/-- Constant `#define MR_TYPE_CTOR_FUNCTORS_EQUIV ((Integer) 2)` -/
def MR_TYPE_CTOR_FUNCTORS_EQUIV : Int := 2
/-- Constant `#define MR_TYPE_CTOR_FUNCTORS_SPECIAL ((Integer) 3)` -/
def MR_TYPE_CTOR_FUNCTORS_SPECIAL : Int := 3
/-- Constant `#define MR_TYPE_CTOR_FUNCTORS_NO_TAG ((Integer) 4)` -/
def MR_TYPE_CTOR_FUNCTORS_NO_TAG : Int := 4
/-- Constant `#define MR_TYPE_CTOR_FUNCTORS_UNIV ((Integer) 5)` -/
def MR_TYPE_CTOR_FUNCTORS_UNIV : Int := 5

/-! ## Vectors accessed through C structs (lines 570-636)

The fields of a struct are laid out in order, each at the next offset that
is a multiple of its alignment.  A `Word` and a pointer have size and
alignment `W`; the size of an `int` is the parameter `sizeofInt`. -/

/-- The least multiple of the alignment `a` that is at least `n`. -/
def alignUp (a n : Nat) : Nat := a * ((n + a - 1) / a)

/-- The C expression `&((T *) p)->field` for a field at byte offset `off`. -/
def fieldAddr (W : Nat) (p : Nat) (off : Nat) : Nat :=
  toWord W ((p : Int) + (off : Int))

/-- Byte offset of the field `Word num_sharers` of `MR_TypeLayout_EnumVector`,
which follows the field `int enum_or_comp_const`. -/
def offsetof_EnumVector_num_sharers (W sizeofInt : Nat) : Nat := alignUp W sizeofInt

/-- Byte offset of the field `ConstString functor1` of
`MR_TypeLayout_EnumVector`, which follows the field `Word num_sharers`. -/
def offsetof_EnumVector_functor1 (W sizeofInt : Nat) : Nat :=
  alignUp W (offsetof_EnumVector_num_sharers W sizeofInt + W)

/-- Macro `MR_TYPE_CTOR_LAYOUT_ENUM_VECTOR_NUM_FUNCTORS(Vector)`:
`((MR_TypeLayout_EnumVector *) (Vector))->num_sharers` -/
def MR_TYPE_CTOR_LAYOUT_ENUM_VECTOR_NUM_FUNCTORS (W sizeofInt : Nat) (mem : Mem)
    (Vector : Nat) : Nat :=
  mem (fieldAddr W Vector (offsetof_EnumVector_num_sharers W sizeofInt))

/-- Macro `MR_TYPE_CTOR_LAYOUT_ENUM_VECTOR_FUNCTOR_NAME(Vector, N)`:
`( (&((MR_TypeLayout_EnumVector *)(Vector))->functor1) [N] )` -/
def MR_TYPE_CTOR_LAYOUT_ENUM_VECTOR_FUNCTOR_NAME (W sizeofInt : Nat) (mem : Mem)
    (Vector : Nat) (N : Int) : Nat :=
  wordIndex W mem (fieldAddr W Vector (offsetof_EnumVector_functor1 W sizeofInt)) N

/-- Constant `#define MR_TYPE_CTOR_FUNCTORS_ENUM_OFFSET_FOR_FUNCTORS_VECTOR ((Integer) 1)` -/
def MR_TYPE_CTOR_FUNCTORS_ENUM_OFFSET_FOR_FUNCTORS_VECTOR : Int := 1

/-- Macro `MR_TYPE_CTOR_FUNCTORS_ENUM_FUNCTORS(Functor)`:
`((Word *) ((Functor)[MR_TYPE_CTOR_FUNCTORS_ENUM_OFFSET_FOR_FUNCTORS_VECTOR]))` -/
def MR_TYPE_CTOR_FUNCTORS_ENUM_FUNCTORS (W : Nat) (mem : Mem) (Functor : Nat) : Nat :=
  wordIndex W mem Functor MR_TYPE_CTOR_FUNCTORS_ENUM_OFFSET_FOR_FUNCTORS_VECTOR

/-- Macro `MR_TYPE_CTOR_FUNCTORS_ENUM_NUM_FUNCTORS(Functors)`:
`MR_TYPE_CTOR_LAYOUT_ENUM_VECTOR_NUM_FUNCTORS(MR_TYPE_CTOR_FUNCTORS_ENUM_FUNCTORS((Functors)))` -/
def MR_TYPE_CTOR_FUNCTORS_ENUM_NUM_FUNCTORS (W sizeofInt : Nat) (mem : Mem)
    (Functors : Nat) : Nat :=
  MR_TYPE_CTOR_LAYOUT_ENUM_VECTOR_NUM_FUNCTORS W sizeofInt mem
    (MR_TYPE_CTOR_FUNCTORS_ENUM_FUNCTORS W mem Functors)

/-- Byte offset of the field `Word num_sharers`, the first field of
`MR_TypeLayout_ComplicatedVector`. -/
def offsetof_ComplicatedVector_num_sharers : Nat := 0

/-- Byte offset of the field `Word simple_vector1` of
`MR_TypeLayout_ComplicatedVector`, which follows the field `Word num_sharers`. -/
def offsetof_ComplicatedVector_simple_vector1 (W : Nat) : Nat :=
  alignUp W (offsetof_ComplicatedVector_num_sharers + W)

/-- Macro `MR_TYPE_CTOR_LAYOUT_COMPLICATED_VECTOR_NUM_SHARERS(Vector)`:
`((MR_TypeLayout_ComplicatedVector *) (Vector))->num_sharers` -/
def MR_TYPE_CTOR_LAYOUT_COMPLICATED_VECTOR_NUM_SHARERS (W : Nat) (mem : Mem)
    (Vector : Nat) : Nat :=
  mem (fieldAddr W Vector offsetof_ComplicatedVector_num_sharers)

/-- Macro `MR_TYPE_CTOR_LAYOUT_COMPLICATED_VECTOR_GET_SIMPLE_VECTOR(Vector, N)`:
`( (Word *) strip_tag((&((MR_TypeLayout_ComplicatedVector *) (Vector))->simple_vector1) [N]) )`;
`strip_tag` comes from `mercury_tags.h` and is a parameter here. -/
def MR_TYPE_CTOR_LAYOUT_COMPLICATED_VECTOR_GET_SIMPLE_VECTOR (W : Nat) (strip_tag : Nat → Nat)
    (mem : Mem) (Vector : Nat) (N : Int) : Nat :=
  strip_tag
    (wordIndex W mem (fieldAddr W Vector (offsetof_ComplicatedVector_simple_vector1 W)) N)

/-! ## No-tag and equivalence vectors (lines 638-677) -/

/-- The value of the `int` object stored at the byte address `p`.  It takes
the first `sizeofInt` bytes of the word stored at `p`: the low-order bytes on
a little-endian machine and the high-order bytes on a big-endian one, read
in two's complement. -/
def intAt (W sizeofInt : Nat) (bigEndian : Bool) (mem : Mem) (p : Nat) : Int :=
  toInteger sizeofInt
    (if bigEndian then ((mem p / 2 ^ (8 * (W - sizeofInt)) : Nat) : Int) else (mem p : Int))

/-- Byte offset of the field `int is_no_tag`, the first field of
`MR_TypeLayout_NoTagVector`. -/
def offsetof_NoTagVector_is_no_tag : Nat := 0

/-- Byte offset of the field `int is_no_tag`, the first field of
`MR_TypeLayout_EquivVector`. -/
def offsetof_EquivVector_is_no_tag : Nat := 0

/-- Macro `MR_TYPE_CTOR_LAYOUT_NO_TAG_VECTOR_IS_NO_TAG(Vector)`:
`((MR_TypeLayout_NoTagVector *) (Vector))->is_no_tag` -/
def MR_TYPE_CTOR_LAYOUT_NO_TAG_VECTOR_IS_NO_TAG (W sizeofInt : Nat) (bigEndian : Bool)
    (mem : Mem) (Vector : Nat) : Int :=
  intAt W sizeofInt bigEndian mem (fieldAddr W Vector offsetof_NoTagVector_is_no_tag)

/-- Macro `MR_TYPE_CTOR_LAYOUT_NO_TAG_VECTOR_ARITY(Vector)`: `(1)` -/
def MR_TYPE_CTOR_LAYOUT_NO_TAG_VECTOR_ARITY (_Vector : Nat) : Int := 1

/-- Constant `#define MR_TYPE_CTOR_LAYOUT_EQUIV_OFFSET_FOR_TYPE ((Integer) 1)` -/
def MR_TYPE_CTOR_LAYOUT_EQUIV_OFFSET_FOR_TYPE : Int := 1

/-- Macro `MR_TYPE_CTOR_LAYOUT_EQUIV_IS_EQUIV(Vector)`:
`(!((MR_TypeLayout_EquivVector *) (Vector))->is_no_tag)`; the operator `!`
yields the `int` 1 for an operand that is 0 and 0 otherwise. -/
def MR_TYPE_CTOR_LAYOUT_EQUIV_IS_EQUIV (W sizeofInt : Nat) (bigEndian : Bool)
    (mem : Mem) (Vector : Nat) : Int :=
  if intAt W sizeofInt bigEndian mem (fieldAddr W Vector offsetof_EquivVector_is_no_tag) = 0
  then 1 else 0

/-! ## Type descriptors and the functions declared at lines 829-846 and 939

The header only declares `MR_make_type_info`, `MR_collapse_equivalences`,
`MR_compare_type_info` and `MR_categorize_data`; their bodies are in
`mercury_type_info.c`.  They are modelled here from the specification of the
runtime type-information layer, over its data model of descriptors. -/

/-- Modelled from the spec: the parameterized template (pseudo type_info) of
the data model, whose representation in words is fixed by the missing
`mercury_type_info.c`.  A template is either a variable placeholder, a small
integer that references a position in a binding context, or a sequence of a
constructor reference and argument templates; the zero-arity case
`app c []` is exactly a constructor reference.  A concrete descriptor
(type_info) is a template without placeholders. -/
inductive Descriptor where
  | var (k : Nat) : Descriptor
  | app (ctor : Nat) (args : List Descriptor) : Descriptor

/-- Modelled from the spec: the fields of a constructor descriptor
(type_ctor_info) that the functions of the missing `mercury_type_info.c`
consult: its arity, the indicator of its functor table, the aliased template
that the functor table carries when the indicator is `EQUIV`, and its type and
module names. -/
structure ConstructorDescriptor where
  /-- Arity of the type constructor. -/
  arity : Nat
  /-- Indicator of the functor table, one of `MR_TYPE_CTOR_FUNCTORS_*`. -/
  indicator : Int
  /-- Aliased template, for an equivalence type. -/
  equivType : Descriptor
  /-- Name of the module that declares the type. -/
  moduleName : String
  /-- Name of the type. -/
  typeName : String

/-- Modelled from the spec: the process-wide read-only table of constructor
descriptors, which the missing `mercury_type_info.c` reaches through
addresses; a constructor is referenced by its handle. -/
abbrev Registry := Nat → ConstructorDescriptor

mutual
/-- A descriptor without variable placeholders. -/
def Descriptor.isConcrete : Descriptor → Bool
  | .var _ => false
  | .app _ args => Descriptor.allConcrete args
/-- A list of descriptors without variable placeholders. -/
def Descriptor.allConcrete : List Descriptor → Bool
  | [] => true
  | d :: ds => Descriptor.isConcrete d && Descriptor.allConcrete ds
end

mutual
/-- Modelled from the spec: the body of `MR_make_type_info(term_type_info,
arg_pseudo_type_info, allocated)`, which is in the missing
`mercury_type_info.c`.  A variable placeholder `k` yields the `k`-th argument
of the binding context directly, and is fatal (`none`) when `k` is outside the
arity of the context; a zero-arity template is returned unchanged, without
allocation; otherwise a new descriptor with the same constructor and arity is
allocated, each argument is built against the same context, and the new cell
is recorded in the allocation list. -/
def MR_make_type_info (term_type_info : Descriptor) :
    Descriptor → List Descriptor → Option (Descriptor × List Descriptor)
  | .var k, allocated =>
    match term_type_info with
    | .var _ => none
    | .app _ args =>
      if 1 ≤ k then
        match args[k - 1]? with
        | some arg => some (arg, allocated)
        | none => none
      else none
  | .app c [], allocated => some (.app c [], allocated)
  | .app c (a :: as), allocated =>
    match MR_make_type_info_args term_type_info (a :: as) allocated with
    | some (args, allocated1) => some (.app c args, .app c args :: allocated1)
    | none => none
/-- Modelled from the spec: the argument slots of a template built one after
the other, from left to right, against the same binding context. -/
def MR_make_type_info_args (term_type_info : Descriptor) :
    List Descriptor → List Descriptor → Option (List Descriptor × List Descriptor)
  | [], allocated => some ([], allocated)
  | a :: as, allocated =>
    match MR_make_type_info term_type_info a allocated with
    | some (arg, allocated1) =>
      match MR_make_type_info_args term_type_info as allocated1 with
      | some (args, allocated2) => some (arg :: args, allocated2)
      | none => none
    | none => none
end

/-- Modelled from the spec: the body of `MR_collapse_equivalences`, which is
in the missing `mercury_type_info.c`.  While the functors indicator of the
constructor of the descriptor is `MR_TYPE_CTOR_FUNCTORS_EQUIV`, the descriptor
is replaced by the aliased template built with the descriptor itself as the
binding context; the number of replacements is bounded by the first argument
and exceeding it is fatal (`none`). -/
def MR_collapse_equivalences (reg : Registry) : Nat → Descriptor → Option Descriptor
  | _, .var k => some (.var k)
  | 0, .app c args =>
    if (reg c).indicator = MR_TYPE_CTOR_FUNCTORS_EQUIV then none
    else some (.app c args)
  | n + 1, .app c args =>
    if (reg c).indicator = MR_TYPE_CTOR_FUNCTORS_EQUIV then
      match MR_make_type_info (.app c args) (reg c).equivType [] with
      | some (d, _) => MR_collapse_equivalences reg n d
      | none => none
    else some (.app c args)

/-- Three-way comparison of two natural numbers, with the result codes
`COMPARE_LESS`, `COMPARE_GREATER` and `COMPARE_EQUAL`. -/
def compareNat (x y : Nat) : Int :=
  if x < y then COMPARE_LESS else if y < x then COMPARE_GREATER else COMPARE_EQUAL

/-- Three-way lexicographic comparison of two names, character by character;
a proper prefix comes first. -/
def compareNames : List Char → List Char → Int
  | [], [] => COMPARE_EQUAL
  | [], _ :: _ => COMPARE_LESS
  | _ :: _, [] => COMPARE_GREATER
  | a :: as, b :: bs =>
    if compareNat a.toNat b.toNat ≠ COMPARE_EQUAL then compareNat a.toNat b.toNat
    else compareNames as bs

/-- Modelled from the spec: the order of two different constructors by the
triple (module name, type name, arity), lexicographically. -/
def compareConstructors (c1 c2 : ConstructorDescriptor) : Int :=
  if compareNames c1.moduleName.toList c2.moduleName.toList ≠ COMPARE_EQUAL then
    compareNames c1.moduleName.toList c2.moduleName.toList
  else if compareNames c1.typeName.toList c2.typeName.toList ≠ COMPARE_EQUAL then
    compareNames c1.typeName.toList c2.typeName.toList
  else compareNat c1.arity c2.arity

/-- Modelled from the spec: argument descriptors compared pairwise, from left
to right, with the first result that is not `COMPARE_EQUAL` returned, and
`COMPARE_EQUAL` otherwise. -/
def compareArgs (cmp : Descriptor → Descriptor → Option Int) :
    List Descriptor → List Descriptor → Option Int
  | x :: xs, y :: ys =>
    match cmp x y with
    | some r => if r = COMPARE_EQUAL then compareArgs cmp xs ys else some r
    | none => none
  | _, _ => some COMPARE_EQUAL

/-- Modelled from the spec: the body of `MR_compare_type_info`, which is in
the missing `mercury_type_info.c`.  Both operands are collapsed (with the
bound `maxEquiv`).  Two descriptors of the same constructor are ordered by
their arities and then by their arguments, pairwise; two different
higher-order constructors are ordered by kind, predicate before function; two
other different constructors are ordered by (module name, type name, arity).
A fatal error is `none`; so is a comparison that needs a deeper recursion than
`fuel`. -/
def MR_compare_type_info (reg : Registry) (g : Globals) (maxEquiv : Nat) :
    Nat → Descriptor → Descriptor → Option Int
  | 0, _, _ => none
  | fuel + 1, t1, t2 =>
    match MR_collapse_equivalences reg maxEquiv t1, MR_collapse_equivalences reg maxEquiv t2 with
    | some (.app c1 args1), some (.app c2 args2) =>
      if c1 = c2 then
        if compareNat args1.length args2.length ≠ COMPARE_EQUAL then
          some (compareNat args1.length args2.length)
        else compareArgs (MR_compare_type_info reg g maxEquiv fuel) args1 args2
      else if MR_TYPE_CTOR_INFO_IS_HO g c1 && MR_TYPE_CTOR_INFO_IS_HO g c2 then
        if MR_TYPE_CTOR_INFO_IS_HO_PRED g c1 then some COMPARE_LESS else some COMPARE_GREATER
      else some (compareConstructors (reg c1) (reg c2))
    | _, _ => none

/-- Code of the opposite comparison result: `COMPARE_LESS` and
`COMPARE_GREATER` exchanged, every other code unchanged. -/
def swapCode (r : Int) : Int :=
  if r = COMPARE_LESS then COMPARE_GREATER
  else if r = COMPARE_GREATER then COMPARE_LESS
  else r

/-! ## Categorizing data representations (lines 217-261 and 850-940) -/

/-- Constant `#define TYPE_CTOR_LAYOUT_CONST_TAG 0` -/
def TYPE_CTOR_LAYOUT_CONST_TAG : Nat := 0
/-- Constant `#define TYPE_CTOR_LAYOUT_COMP_CONST_TAG 0` -/
def TYPE_CTOR_LAYOUT_COMP_CONST_TAG : Nat := 0
/-- Constant `#define TYPE_CTOR_LAYOUT_SIMPLE_TAG 1` -/
def TYPE_CTOR_LAYOUT_SIMPLE_TAG : Nat := 1
/-- Constant `#define TYPE_CTOR_LAYOUT_COMPLICATED_TAG 2` -/
def TYPE_CTOR_LAYOUT_COMPLICATED_TAG : Nat := 2
/-- Constant `#define TYPE_CTOR_LAYOUT_EQUIV_TAG 3` -/
def TYPE_CTOR_LAYOUT_EQUIV_TAG : Nat := 3
/-- Constant `#define TYPE_CTOR_LAYOUT_NO_TAG 3` -/
def TYPE_CTOR_LAYOUT_NO_TAG : Nat := 3

/-- Enumerator 0 of `enum MR_TypeLayoutValue`. -/
def MR_TYPE_CTOR_LAYOUT_UNASSIGNED_VALUE : Nat := 0
/-- Enumerator 1 of `enum MR_TypeLayoutValue`. -/
def MR_TYPE_CTOR_LAYOUT_UNUSED_VALUE : Nat := 1
/-- Enumerator 2 of `enum MR_TypeLayoutValue`. -/
def MR_TYPE_CTOR_LAYOUT_STRING_VALUE : Nat := 2
/-- Enumerator 3 of `enum MR_TypeLayoutValue`. -/
def MR_TYPE_CTOR_LAYOUT_FLOAT_VALUE : Nat := 3
/-- Enumerator 4 of `enum MR_TypeLayoutValue`. -/
def MR_TYPE_CTOR_LAYOUT_INT_VALUE : Nat := 4
/-- Enumerator 5 of `enum MR_TypeLayoutValue`. -/
def MR_TYPE_CTOR_LAYOUT_CHARACTER_VALUE : Nat := 5
/-- Enumerator 6 of `enum MR_TypeLayoutValue`. -/
def MR_TYPE_CTOR_LAYOUT_UNIV_VALUE : Nat := 6
/-- Enumerator 7 of `enum MR_TypeLayoutValue`. -/
def MR_TYPE_CTOR_LAYOUT_PREDICATE_VALUE : Nat := 7
/-- Enumerator 8 of `enum MR_TypeLayoutValue`. -/
def MR_TYPE_CTOR_LAYOUT_VOID_VALUE : Nat := 8
/-- Enumerator 9 of `enum MR_TypeLayoutValue`. -/
def MR_TYPE_CTOR_LAYOUT_ARRAY_VALUE : Nat := 9
/-- Enumerator 10 of `enum MR_TypeLayoutValue`. -/
def MR_TYPE_CTOR_LAYOUT_TYPEINFO_VALUE : Nat := 10
/-- Enumerator 11 of `enum MR_TypeLayoutValue`. -/
def MR_TYPE_CTOR_LAYOUT_C_POINTER_VALUE : Nat := 11
/-- Enumerator 12 of `enum MR_TypeLayoutValue`. -/
def MR_TYPE_CTOR_LAYOUT_TYPECLASSINFO_VALUE : Nat := 12

/-- The type `enum MR_DataRepresentation`, with its enumerators in the order
of the header. -/
inductive MR_DataRepresentation where
  | MR_DATAREP_ENUM
  | MR_DATAREP_COMPLICATED_CONST
  | MR_DATAREP_COMPLICATED
  | MR_DATAREP_SIMPLE
  | MR_DATAREP_NOTAG
  | MR_DATAREP_EQUIV
  | MR_DATAREP_EQUIV_VAR
  | MR_DATAREP_INT
  | MR_DATAREP_CHAR
  | MR_DATAREP_FLOAT
  | MR_DATAREP_STRING
  | MR_DATAREP_PRED
  | MR_DATAREP_UNIV
  | MR_DATAREP_VOID
  | MR_DATAREP_ARRAY
  | MR_DATAREP_TYPEINFO
  | MR_DATAREP_C_POINTER
  | MR_DATAREP_UNKNOWN
  | MR_DATAREP_TYPECLASSINFO
deriving DecidableEq

/-- Modelled from the spec: a decoded entry of a layout table, whose encoding
in a word is read by the missing `mercury_type_info.c` with the missing
`mercury_tags.h`.  An entry is a tagged variant: a constant-value vector (with
the value of its constant, which for a builtin type is its builtin id), a
simple-constructor vector, a complicated (shared) vector (with the arity of
the underlying functor), an equivalence vector (with the alias target), or a
no-tag vector. -/
inductive LayoutEntry where
  | constant (value : Nat) : LayoutEntry
  | simple : LayoutEntry
  | complicated (arity : Nat) : LayoutEntry
  | equivalence (target : Descriptor) : LayoutEntry
  | noTag : LayoutEntry

/-- Modelled from the spec: the leaf representation that matches the builtin
id of a `SPECIAL` type, for the ids int, char, float, string, pred, univ, void,
array, typeinfo, c_pointer and typeclassinfo; any other id is `UNKNOWN`. -/
def builtinRepresentation (value : Nat) : MR_DataRepresentation :=
  if value = MR_TYPE_CTOR_LAYOUT_INT_VALUE then .MR_DATAREP_INT
  else if value = MR_TYPE_CTOR_LAYOUT_CHARACTER_VALUE then .MR_DATAREP_CHAR
  else if value = MR_TYPE_CTOR_LAYOUT_FLOAT_VALUE then .MR_DATAREP_FLOAT
  else if value = MR_TYPE_CTOR_LAYOUT_STRING_VALUE then .MR_DATAREP_STRING
  else if value = MR_TYPE_CTOR_LAYOUT_PREDICATE_VALUE then .MR_DATAREP_PRED
  else if value = MR_TYPE_CTOR_LAYOUT_UNIV_VALUE then .MR_DATAREP_UNIV
  else if value = MR_TYPE_CTOR_LAYOUT_VOID_VALUE then .MR_DATAREP_VOID
  else if value = MR_TYPE_CTOR_LAYOUT_ARRAY_VALUE then .MR_DATAREP_ARRAY
  else if value = MR_TYPE_CTOR_LAYOUT_TYPEINFO_VALUE then .MR_DATAREP_TYPEINFO
  else if value = MR_TYPE_CTOR_LAYOUT_C_POINTER_VALUE then .MR_DATAREP_C_POINTER
  else if value = MR_TYPE_CTOR_LAYOUT_TYPECLASSINFO_VALUE then .MR_DATAREP_TYPECLASSINFO
  else .MR_DATAREP_UNKNOWN

/-- Modelled from the spec: the body of `MR_categorize_data(functors_indicator,
layout_entry)`, which is in the missing `mercury_type_info.c`, after the
decision table of the classifier: a `DU` indicator with a complicated entry
is `COMPLICATED` when the underlying arity is positive and
`COMPLICATED_CONST` when it is 0, with a simple entry `SIMPLE`, with a
constant entry `COMPLICATED_CONST`; `ENUM` is `ENUM` and `NO_TAG` is `NOTAG`,
whatever the entry; `EQUIV` is `EQUIV_VAR` when the alias target is a variable
and `EQUIV` when it is bound; `SPECIAL` is the leaf representation of the
builtin id; anything else is `UNKNOWN`. -/
def MR_categorize_data (functors_indicator : Int) (layout_entry : LayoutEntry) :
    MR_DataRepresentation :=
  if functors_indicator = MR_TYPE_CTOR_FUNCTORS_DU then
    match layout_entry with
    | .complicated arity =>
      if 0 < arity then .MR_DATAREP_COMPLICATED else .MR_DATAREP_COMPLICATED_CONST
    | .simple => .MR_DATAREP_SIMPLE
    | .constant _ => .MR_DATAREP_COMPLICATED_CONST
    | _ => .MR_DATAREP_UNKNOWN
  else if functors_indicator = MR_TYPE_CTOR_FUNCTORS_ENUM then .MR_DATAREP_ENUM
  else if functors_indicator = MR_TYPE_CTOR_FUNCTORS_NO_TAG then .MR_DATAREP_NOTAG
  else if functors_indicator = MR_TYPE_CTOR_FUNCTORS_EQUIV then
    match layout_entry with
    | .equivalence (.var _) => .MR_DATAREP_EQUIV_VAR
    | .equivalence (.app _ _) => .MR_DATAREP_EQUIV
    | _ => .MR_DATAREP_UNKNOWN
  else if functors_indicator = MR_TYPE_CTOR_FUNCTORS_SPECIAL then
    match layout_entry with
    | .constant value => builtinRepresentation value
    | _ => .MR_DATAREP_UNKNOWN
  else .MR_DATAREP_UNKNOWN

/-! ## Example constructors -/

/-- A constructor descriptor that is not an equivalence. -/
def plainConstructor (arity : Nat) (indicator : Int) (moduleName typeName : String) :
    ConstructorDescriptor :=
  ConstructorDescriptor.mk arity indicator (.var 0) moduleName typeName

/-- A registry with the shared `pred/0` and `func/0` constructors (handles 1
and 2), the builtin types `int` and `float` (10 and 11), the type `list/1`
(20), the equivalence `alias == list(int)` (30), the equivalence
`same(T) == T` (31) and the cyclic equivalence `loop == loop` (40). -/
def exRegistry : Registry := fun c =>
  if c = 1 then plainConstructor 0 MR_TYPE_CTOR_FUNCTORS_SPECIAL "builtin" "pred"
  else if c = 2 then plainConstructor 0 MR_TYPE_CTOR_FUNCTORS_SPECIAL "builtin" "func"
  else if c = 10 then plainConstructor 0 MR_TYPE_CTOR_FUNCTORS_SPECIAL "builtin" "int"
  else if c = 11 then plainConstructor 0 MR_TYPE_CTOR_FUNCTORS_SPECIAL "builtin" "float"
  else if c = 20 then plainConstructor 1 MR_TYPE_CTOR_FUNCTORS_DU "list" "list"
  else if c = 30 then
    ConstructorDescriptor.mk 0 MR_TYPE_CTOR_FUNCTORS_EQUIV
      (.app 20 [.app 10 []]) "m" "alias"
  else if c = 31 then
    ConstructorDescriptor.mk 1 MR_TYPE_CTOR_FUNCTORS_EQUIV (.var 1) "m" "same"
  else if c = 40 then
    ConstructorDescriptor.mk 0 MR_TYPE_CTOR_FUNCTORS_EQUIV (.app 40 []) "m" "loop"
  else plainConstructor 0 MR_TYPE_CTOR_FUNCTORS_DU "" ""

/-- The handles of the shared higher-order constructors in `exRegistry`. -/
def exGlobals : Globals := Globals.mk 1 2

/-! ## Example memories -/

/-- Memory holding the words `ws` in consecutive slots of `W` bytes from the
address `p`, and zero everywhere else. -/
def memOfList (W : Nat) (p : Nat) (ws : List Nat) : Mem :=
  fun a => if p ≤ a ∧ (a - p) % W = 0 then ws.getD ((a - p) / W) 0 else 0

/-- A 32-bit memory with the type_ctor_info of a type of arity 0 at address
1000 (nine words), and at address 1040 the type_info of a type of arity 1:
its type_ctor_info, at address 5000, and its argument, the type at 1000. -/
def exTypeInfoMem : Mem :=
  memOfList 4 1000 [0, 7, 7, 7, 88, 99, 0, 2000, 3000, 0, 5000, 1000]

/-- A 32-bit memory with a higher-order type_info at address 1000: the
address 4096 of the shared constructor, the arity slot holding 2, and one
argument. -/
def exHigherOrderMem : Mem := memOfList 4 1000 [4096, 2, 6000]

/-- A 32-bit memory with a discriminated-union type_functors table at
address 2000: the indicator, the count 2, and the two simple vectors at
addresses 7000 and 8000. -/
def exDuFunctorsMem : Mem := memOfList 4 2000 [0, 2, 7000, 8000]

/-- A 32-bit memory with a simple vector at address 3000: arity 2, two
argument pseudo-type-infos, the functor name and the functor tag. -/
def exSimpleVectorMem : Mem := memOfList 4 3000 [2, 1, 5000, 9000, 1]

/-- A 32-bit memory with a higher-order type_info at address 1000: the
address 4096 of the shared constructor, the arity 2, and two arguments. -/
def exHigherOrderArgsMem : Mem := memOfList 4 1000 [4096, 2, 6000, 6100]

/-- A 32-bit memory with an enum vector at address 3000 (flag 1, three
functor names at addresses 9000, 9010 and 9020) and an enumeration
type_functors table at address 3040 that references it. -/
def exEnumMem : Mem :=
  memOfList 4 3000 [1, 3, 9000, 9010, 9020, 0, 0, 0, 0, 0, 1, 3000]

/-- A 32-bit memory with a complicated vector at address 3000: two sharers,
whose simple vectors at 7000 and 8000 are stored with the tag 2. -/
def exComplicatedMem : Mem := memOfList 4 3000 [2, 7002, 8002]

/-- A 32-bit memory with a univ at address 1000: the type_info 5000 and the
data word 42. -/
def exUnivMem : Mem := memOfList 4 1000 [5000, 42]

/-- A 32-bit memory with a no-tag vector at address 3000 (flag 1, the
argument and the functor name) and an equivalence vector at address 3040
(flag 0 and the equivalent type). -/
def exTag3Mem : Mem :=
  memOfList 4 3000 [1, 5000, 9000, 0, 0, 0, 0, 0, 0, 0, 0, 5000]

/-- A 32-bit memory with the type_ctor_info of a type of arity 1 at address
1000 (nine words), and at address 1040 a type_info of that type: the
type_ctor_info and one argument. -/
def exArityOneMem : Mem :=
  memOfList 4 1000 [1, 7, 7, 7, 88, 99, 0, 2000, 3000, 0, 1000, 5000]

/-- A 32-bit memory with a typeclass_info at address 1000, whose word 0
points to the method table at address 2000: the instance arity 2 and two
method addresses. -/
def exTypeClassInfoMem : Mem := fun a =>
  if a = 1000 then 2000 else if a = 1004 then 11 else if a = 1008 then 22
  else if a = 1012 then 33 else if a = 1016 then 44
  else if a = 2000 then 2 else if a = 2004 then 6000 else if a = 2008 then 6100 else 0

/-- The memory `exTypeClassInfoMem` with another instance arity and other
words in the typeclass_info after word 0. -/
def exTypeClassInfoMem2 : Mem := fun a =>
  if a = 1000 then 2000 else if a = 1004 then 55 else if a = 1008 then 66
  else if a = 1012 then 77 else if a = 1016 then 88
  else if a = 2000 then 3 else if a = 2004 then 6000 else if a = 2008 then 6100 else 0

/-! ## Basic facts about the casts -/

theorem wordMod_pos (W : Nat) : 0 < wordMod W := by
  unfold wordMod
  exact Nat.pos_pow_of_pos _ (by decide)

theorem toWord_lt (W : Nat) (x : Int) : toWord W x < wordMod W := by
  have hpos : (0 : Int) < (wordMod W : Int) := by exact_mod_cast wordMod_pos W
  have h1 := Int.emod_lt_of_pos x hpos
  have h0 := Int.emod_nonneg x (ne_of_gt hpos)
  unfold toWord
  omega

theorem toWord_cast (W : Nat) (x : Int) :
    ((toWord W x : Nat) : Int) = x % (wordMod W : Int) := by
  have hpos : (0 : Int) < (wordMod W : Int) := by exact_mod_cast wordMod_pos W
  have h0 := Int.emod_nonneg x (ne_of_gt hpos)
  unfold toWord
  omega

theorem toWord_of_lt (W : Nat) (t : Nat) (h : t < wordMod W) :
    toWord W (t : Int) = t := by
  have h1 : ((t : Int)) % (wordMod W : Int) = t :=
    Int.emod_eq_of_lt (by omega) (by exact_mod_cast h)
  unfold toWord
  rw [h1]
  simp

theorem toWord_of_nonneg_lt (W : Nat) (x : Int) (h0 : 0 ≤ x) (h1 : x < (wordMod W : Int)) :
    ((toWord W x : Nat) : Int) = x := by
  rw [toWord_cast]
  exact Int.emod_eq_of_lt h0 h1

theorem toWord_eq_of_dvd (W : Nat) (x y : Int) (h : (wordMod W : Int) ∣ x - y) :
    toWord W x = toWord W y := by
  have h1 : x % (wordMod W : Int) = y % (wordMod W : Int) :=
    Int.emod_eq_emod_iff_emod_sub_eq_zero.mpr (Int.emod_eq_zero_of_dvd h)
  unfold toWord
  rw [h1]

theorem toWord_sub_dvd (W : Nat) (x : Int) : (wordMod W : Int) ∣ (toWord W x : Int) - x := by
  rw [toWord_cast, Int.emod_def]
  exact ⟨-(x / (wordMod W : Int)), by ring⟩

theorem toInteger_sub_dvd (W : Nat) (x : Int) : (wordMod W : Int) ∣ toInteger W x - x := by
  obtain ⟨k, hk⟩ := toWord_sub_dvd W x
  unfold toInteger
  split
  · exact ⟨k, hk⟩
  · exact ⟨k - 1, by rw [mul_sub, ← hk]; ring⟩

theorem toInteger_of_representable (W : Nat) (x : Int) (h : integerRepresentable W x) :
    toInteger W x = x := by
  obtain ⟨hlo, hhi⟩ := h
  have hpos : (0 : Int) < (wordMod W : Int) := by exact_mod_cast wordMod_pos W
  have hhalf : (wordMod W : Int) / 2 + (wordMod W : Int) / 2 ≤ (wordMod W : Int) := by omega
  unfold toInteger
  rw [toWord_cast]
  by_cases hx : 0 ≤ x
  · have h1 : x % (wordMod W : Int) = x := Int.emod_eq_of_lt hx (by omega)
    rw [h1, if_pos hhi]
  · have h2 : x % (wordMod W : Int) = x + (wordMod W : Int) := by
      have h3 : (x + (wordMod W : Int)) % (wordMod W : Int) = x + (wordMod W : Int) :=
        Int.emod_eq_of_lt (by omega) (by omega)
      rw [← h3, Int.add_emod_self]
    rw [h2, if_neg (by omega)]
    omega

/-- Two indices that differ by a multiple of `2 ^ wordBits` select the same slot. -/
theorem wordIndex_congr (W : Nat) (mem : Mem) (p : Nat) (i j : Int)
    (h : (wordMod W : Int) ∣ i - j) : wordIndex W mem p i = wordIndex W mem p j := by
  obtain ⟨k, hk⟩ := h
  unfold wordIndex wordAddr
  rw [toWord_eq_of_dvd W ((p : Int) + (W : Int) * i) ((p : Int) + (W : Int) * j)
    ⟨(W : Int) * k, by
      have : (p : Int) + (W : Int) * i - ((p : Int) + (W : Int) * j) = (W : Int) * (i - j) := by
        ring
      rw [this, hk]; ring⟩]

theorem wordIndex_toWord (W : Nat) (mem : Mem) (p : Nat) (i : Int) :
    wordIndex W mem p (toWord W i : Int) = wordIndex W mem p i :=
  wordIndex_congr W mem p _ _ (toWord_sub_dvd W i)

theorem wordIndex_toInteger (W : Nat) (mem : Mem) (p : Nat) (i : Int) :
    wordIndex W mem p (toInteger W i) = wordIndex W mem p i :=
  wordIndex_congr W mem p _ _ (toInteger_sub_dvd W i)

theorem wordMod_ge_of_two_le (W : Nat) (hW : 2 ≤ W) : 65536 ≤ wordMod W := by
  have h : 2 ^ 16 ≤ 2 ^ (8 * W) := Nat.pow_le_pow_right (by decide) (by omega)
  unfold wordMod wordBits
  omega

/-- The predicate encoding of a non-negative arity `a` is the word `2 * a`
when `2 * a` does not overflow. -/
theorem make_pred_val (W : Nat) (a : Int) (ha : 0 ≤ a)
    (h : integerRepresentable W (2 * a)) :
    ((MR_TYPECTOR_MAKE_PRED W a : Nat) : Int) = 2 * a := by
  have hpos : (0 : Int) < (wordMod W : Int) := by exact_mod_cast wordMod_pos W
  have h2 := h
  obtain ⟨hlo, hhi⟩ := h
  have ha' : integerRepresentable W a := ⟨by omega, by omega⟩
  unfold MR_TYPECTOR_MAKE_PRED
  rw [toInteger_of_representable W a ha', mul_comm a 2, toInteger_of_representable W _ h2]
  exact toWord_of_nonneg_lt W _ (by omega) (by omega)

/-- The function encoding of a non-negative arity `a` is the word `2 * a + 1`
when `2 * a + 1` does not overflow. -/
theorem make_func_val (W : Nat) (a : Int) (ha : 0 ≤ a)
    (h : integerRepresentable W (2 * a + 1)) :
    ((MR_TYPECTOR_MAKE_FUNC W a : Nat) : Int) = 2 * a + 1 := by
  have hpos : (0 : Int) < (wordMod W : Int) := by exact_mod_cast wordMod_pos W
  have h2 := h
  obtain ⟨hlo, hhi⟩ := h
  have ha' : integerRepresentable W a := ⟨by omega, by omega⟩
  have h2a : integerRepresentable W (2 * a) := ⟨by omega, by omega⟩
  unfold MR_TYPECTOR_MAKE_FUNC
  rw [toInteger_of_representable W a ha', mul_comm a 2, toInteger_of_representable W _ h2a,
    toInteger_of_representable W _ h2]
  exact toWord_of_nonneg_lt W _ (by omega) (by omega)

/-! ## The claims -/

/-- C1: for every word `t`, `TYPEINFO_IS_VARIABLE(t)` is true exactly when
`t`, read as an unsigned word, is at most `TYPE_CTOR_LAYOUT_MAX_VARINT = 1024`;
it is true at 1024, false at 1025, and false for every word whose signed
reading is negative. -/
theorem typeinfo_is_variable_iff (W : Nat) (hW : 2 ≤ W) (t : Nat) (ht : t < wordMod W) :
    TYPE_CTOR_LAYOUT_MAX_VARINT = 1024 ∧
    (TYPEINFO_IS_VARIABLE W (t : Int) = true ↔ t ≤ 1024) ∧
    TYPEINFO_IS_VARIABLE W 1024 = true ∧
    TYPEINFO_IS_VARIABLE W 1025 = false ∧
    (toInteger W (t : Int) < 0 → TYPEINFO_IS_VARIABLE W (t : Int) = false) := by
  have hM := wordMod_ge_of_two_le W hW
  have e1 : toWord W ((1024 : Nat) : Int) = 1024 := toWord_of_lt W 1024 (by omega)
  have e2 : toWord W ((1025 : Nat) : Int) = 1025 := toWord_of_lt W 1025 (by omega)
  have et : toWord W (t : Int) = t := toWord_of_lt W t ht
  have e1' : toWord W (1024 : Int) = 1024 := by exact_mod_cast e1
  have e2' : toWord W (1025 : Int) = 1025 := by exact_mod_cast e2
  refine ⟨rfl, ?_, ?_, ?_, ?_⟩
  · simp [TYPEINFO_IS_VARIABLE, TYPE_CTOR_LAYOUT_MAX_VARINT, et]
  · simp [TYPEINFO_IS_VARIABLE, TYPE_CTOR_LAYOUT_MAX_VARINT, e1']
  · simp [TYPEINFO_IS_VARIABLE, TYPE_CTOR_LAYOUT_MAX_VARINT, e2']
  · intro hneg
    have hsplit : ¬ ((t : Int) < (wordMod W : Int) / 2) := by
      intro hlt
      unfold toInteger at hneg
      rw [et, if_pos hlt] at hneg
      omega
    simp only [TYPEINFO_IS_VARIABLE, TYPE_CTOR_LAYOUT_MAX_VARINT, et, decide_eq_false_iff_not]
    have hM' : (65536 : Int) ≤ (wordMod W : Int) := by exact_mod_cast hM
    omega

/-- Instance of C1 on a 32-bit machine at the word `0xFFFFFFFF`, whose signed
reading is -1. -/
theorem typeinfo_is_variable_iff_witness :
    (2 ≤ 4 ∧ 4294967295 < wordMod 4) ∧
    (TYPE_CTOR_LAYOUT_MAX_VARINT = 1024 ∧
    (TYPEINFO_IS_VARIABLE 4 ((4294967295 : Nat) : Int) = true ↔ 4294967295 ≤ 1024) ∧
    TYPEINFO_IS_VARIABLE 4 1024 = true ∧
    TYPEINFO_IS_VARIABLE 4 1025 = false ∧
    (toInteger 4 ((4294967295 : Nat) : Int) < 0 →
      TYPEINFO_IS_VARIABLE 4 ((4294967295 : Nat) : Int) = false)) :=
  ⟨⟨by decide, by decide⟩, typeinfo_is_variable_iff 4 (by decide) 4294967295 (by decide)⟩

/-- C2: round trip of the higher-order arity encoding: for every arity `a ≥ 0`
such that `2 * a + 1` is representable in an `Integer`,
`MR_TYPECTOR_GET_HOT_ARITY(MR_TYPECTOR_MAKE_PRED(a)) = a` and
`MR_TYPECTOR_GET_HOT_ARITY(MR_TYPECTOR_MAKE_FUNC(a)) = a`. -/
theorem hot_arity_round_trip (W : Nat) (a : Int) (ha : 0 ≤ a)
    (hrep : integerRepresentable W (2 * a + 1)) :
    MR_TYPECTOR_GET_HOT_ARITY W (MR_TYPECTOR_MAKE_PRED W a : Int) = a ∧
    MR_TYPECTOR_GET_HOT_ARITY W (MR_TYPECTOR_MAKE_FUNC W a : Int) = a := by
  have h2a : integerRepresentable W (2 * a) := ⟨by have := hrep.1; omega, by have := hrep.2; omega⟩
  constructor
  · unfold MR_TYPECTOR_GET_HOT_ARITY
    rw [make_pred_val W a ha h2a, toInteger_of_representable W _ h2a,
      Int.tdiv_eq_ediv (by omega) (by omega)]
    omega
  · unfold MR_TYPECTOR_GET_HOT_ARITY
    rw [make_func_val W a ha hrep, toInteger_of_representable W _ hrep,
      Int.tdiv_eq_ediv (by omega) (by omega)]
    omega

/-- Instance of C2 on a 32-bit machine at arity 3. -/
theorem hot_arity_round_trip_witness :
    (0 ≤ (3 : Int) ∧ integerRepresentable 4 (2 * 3 + 1)) ∧
    (MR_TYPECTOR_GET_HOT_ARITY 4 (MR_TYPECTOR_MAKE_PRED 4 3 : Int) = 3 ∧
    MR_TYPECTOR_GET_HOT_ARITY 4 (MR_TYPECTOR_MAKE_FUNC 4 3 : Int) = 3) :=
  ⟨⟨by decide, by unfold integerRepresentable; decide⟩,
    hot_arity_round_trip 4 3 (by decide) (by unfold integerRepresentable; decide)⟩

/-- C3: kind decoding of the higher-order encoding: for every arity `a ≥ 0`
whose encoding does not overflow, `MR_TYPECTOR_GET_HOT_NAME` is `"pred"` on
`MR_TYPECTOR_MAKE_PRED(a)` and `"func"` on `MR_TYPECTOR_MAKE_FUNC(a)`,
`MR_TYPECTOR_GET_HOT_TYPE_CTOR_INFO` returns the shared `pred/0` constructor
for the former and the shared `func/0` constructor for the latter, and its
result always satisfies `MR_TYPE_CTOR_INFO_IS_HO`. -/
theorem hot_kind_decoding (W : Nat) (g : Globals) (a : Int) (ha : 0 ≤ a)
    (hrep : integerRepresentable W (2 * a + 1))
    (hp : g.mercury_data___type_ctor_info_pred_0 < wordMod W)
    (hf : g.mercury_data___type_ctor_info_func_0 < wordMod W) :
    MR_TYPECTOR_GET_HOT_NAME W (MR_TYPECTOR_MAKE_PRED W a : Int) = "pred" ∧
    MR_TYPECTOR_GET_HOT_NAME W (MR_TYPECTOR_MAKE_FUNC W a : Int) = "func" ∧
    MR_TYPECTOR_GET_HOT_TYPE_CTOR_INFO W g (MR_TYPECTOR_MAKE_PRED W a : Int)
      = MR_TYPE_CTOR_INFO_HO_PRED g ∧
    MR_TYPECTOR_GET_HOT_TYPE_CTOR_INFO W g (MR_TYPECTOR_MAKE_FUNC W a : Int)
      = MR_TYPE_CTOR_INFO_HO_FUNC g ∧
    (∀ T : Int,
      MR_TYPE_CTOR_INFO_IS_HO g (MR_TYPECTOR_GET_HOT_TYPE_CTOR_INFO W g T) = true) := by
  have h2a : integerRepresentable W (2 * a) := ⟨by have := hrep.1; omega, by have := hrep.2; omega⟩
  have hpred : Int.tmod (toInteger W (MR_TYPECTOR_MAKE_PRED W a : Int)) 2 = 0 := by
    rw [make_pred_val W a ha h2a, toInteger_of_representable W _ h2a,
      Int.tmod_eq_emod (by omega) (by omega)]
    omega
  have hfunc : Int.tmod (toInteger W (MR_TYPECTOR_MAKE_FUNC W a : Int)) 2 = 1 := by
    rw [make_func_val W a ha hrep, toInteger_of_representable W _ hrep,
      Int.tmod_eq_emod (by omega) (by omega)]
    omega
  have ep := toWord_of_lt W _ hp
  have ef := toWord_of_lt W _ hf
  refine ⟨?_, ?_, ?_, ?_, ?_⟩
  · simp [MR_TYPECTOR_GET_HOT_NAME, hpred]
  · simp [MR_TYPECTOR_GET_HOT_NAME, hfunc]
  · simp [MR_TYPECTOR_GET_HOT_TYPE_CTOR_INFO, MR_TYPE_CTOR_INFO_HO_PRED, hpred, ep]
  · simp [MR_TYPECTOR_GET_HOT_TYPE_CTOR_INFO, MR_TYPE_CTOR_INFO_HO_FUNC, hfunc, ef]
  · intro T
    unfold MR_TYPECTOR_GET_HOT_TYPE_CTOR_INFO MR_TYPE_CTOR_INFO_IS_HO
      MR_TYPE_CTOR_INFO_HO_FUNC MR_TYPE_CTOR_INFO_HO_PRED
    split
    · rw [ef]; simp
    · rw [ep]; simp

/-- Instance of C3 on a 32-bit machine at arity 3, with the shared constructors
at addresses 4096 and 8192. -/
theorem hot_kind_decoding_witness :
    (0 ≤ (3 : Int) ∧ integerRepresentable 4 (2 * 3 + 1) ∧
      (Globals.mk 4096 8192).mercury_data___type_ctor_info_pred_0 < wordMod 4 ∧
      (Globals.mk 4096 8192).mercury_data___type_ctor_info_func_0 < wordMod 4) ∧
    (MR_TYPECTOR_GET_HOT_NAME 4 (MR_TYPECTOR_MAKE_PRED 4 3 : Int) = "pred" ∧
    MR_TYPECTOR_GET_HOT_NAME 4 (MR_TYPECTOR_MAKE_FUNC 4 3 : Int) = "func" ∧
    MR_TYPECTOR_GET_HOT_TYPE_CTOR_INFO 4 (Globals.mk 4096 8192) (MR_TYPECTOR_MAKE_PRED 4 3 : Int)
      = MR_TYPE_CTOR_INFO_HO_PRED (Globals.mk 4096 8192) ∧
    MR_TYPECTOR_GET_HOT_TYPE_CTOR_INFO 4 (Globals.mk 4096 8192) (MR_TYPECTOR_MAKE_FUNC 4 3 : Int)
      = MR_TYPE_CTOR_INFO_HO_FUNC (Globals.mk 4096 8192) ∧
    (∀ T : Int, MR_TYPE_CTOR_INFO_IS_HO (Globals.mk 4096 8192)
      (MR_TYPECTOR_GET_HOT_TYPE_CTOR_INFO 4 (Globals.mk 4096 8192) T) = true)) :=
  ⟨⟨by decide, by unfold integerRepresentable; decide, by decide, by decide⟩,
    hot_kind_decoding 4 (Globals.mk 4096 8192) 3 (by decide)
      (by unfold integerRepresentable; decide) (by decide) (by decide)⟩

theorem wordAddr_zero (W : Nat) (p : Nat) (hp : p < wordMod W) : wordAddr W p 0 = p := by
  unfold wordAddr
  rw [mul_zero, add_zero]
  exact toWord_of_lt W p hp

/-- C4: for every type_info `ti`, if the first word of `ti` is 0 then
`MR_TYPEINFO_GET_TYPE_CTOR_INFO(ti)` is `ti` itself, and if the first word is
non-zero it is that first word. -/
theorem get_type_ctor_info_cases (W : Nat) (mem : Mem) (ti : Nat) (hti : ti < wordMod W) :
    wordIndex W mem ti OFFSET_FOR_COUNT = mem ti ∧
    (mem ti = 0 → MR_TYPEINFO_GET_TYPE_CTOR_INFO W mem ti = ti) ∧
    (mem ti ≠ 0 → MR_TYPEINFO_GET_TYPE_CTOR_INFO W mem ti = mem ti) := by
  have h0 : wordIndex W mem ti 0 = mem ti := by
    unfold wordIndex
    rw [wordAddr_zero W ti hti]
  refine ⟨h0, ?_, ?_⟩
  · intro hz
    unfold MR_TYPEINFO_GET_TYPE_CTOR_INFO
    rw [h0, if_neg (by simp [hz])]
    exact toWord_of_lt W ti hti
  · intro hnz
    unfold MR_TYPEINFO_GET_TYPE_CTOR_INFO
    rw [h0, if_pos hnz]

/-- Instance of C4 on `exTypeInfoMem`: the type_ctor_info of arity 0 at address
1000 is its own constructor, and the type_info at 1040 has the constructor 5000. -/
theorem get_type_ctor_info_cases_witness :
    (1000 < wordMod 4 ∧ 1040 < wordMod 4) ∧
    (exTypeInfoMem 1000 = 0 ∧ MR_TYPEINFO_GET_TYPE_CTOR_INFO 4 exTypeInfoMem 1000 = 1000) ∧
    (exTypeInfoMem 1040 ≠ 0 ∧ MR_TYPEINFO_GET_TYPE_CTOR_INFO 4 exTypeInfoMem 1040 = 5000) :=
  ⟨⟨by decide, by decide⟩,
    ⟨by decide, (get_type_ctor_info_cases 4 exTypeInfoMem 1000 (by decide)).2.1 (by decide)⟩,
    ⟨by decide, (get_type_ctor_info_cases 4 exTypeInfoMem 1040 (by decide)).2.2 (by decide)⟩⟩

/-- C5, as stated, fails: the arity slot of the higher-order type_info at
address 1000 of `exHigherOrderMem` holds the encoded value `2 * 1`, and
`MR_TYPEINFO_GET_HIGHER_ARITY` yields 2, not the arity 1. -/
theorem get_higher_arity_not_halved :
    laidOut 4 exHigherOrderMem 1000 [4096, 2, 6000] ∧
    (0 : Int) ≤ 1 ∧
    (wordIndex 4 exHigherOrderMem 1000 TYPEINFO_OFFSET_FOR_PRED_ARITY : Int) = 2 * 1 ∧
    MR_TYPEINFO_GET_HIGHER_ARITY 4 exHigherOrderMem 1000 = 2 ∧
    MR_TYPEINFO_GET_HIGHER_ARITY 4 exHigherOrderMem 1000 ≠ 1 := by
  refine ⟨?_, by decide, by decide, by decide, by decide⟩
  intro i hi
  have hi3 : i < 3 := hi
  interval_cases i <;> decide

/-- C5, amended: for every higher-order type_info whose arity slot (offset
`TYPEINFO_OFFSET_FOR_PRED_ARITY`) holds the encoded value `2 * a` or
`2 * a + 1` with `a ≥ 0`, `MR_TYPEINFO_GET_HIGHER_ARITY` yields the stored
value itself, not halved; `MR_TYPECTOR_GET_HOT_ARITY` applied to it yields
`a`. -/
theorem get_higher_arity_raw (W : Nat) (mem : Mem) (ti : Nat) (a : Int) (ha : 0 ≤ a)
    (hrep : integerRepresentable W (2 * a + 1))
    (hslot : (wordIndex W mem ti TYPEINFO_OFFSET_FOR_PRED_ARITY : Int) = 2 * a ∨
      (wordIndex W mem ti TYPEINFO_OFFSET_FOR_PRED_ARITY : Int) = 2 * a + 1) :
    MR_TYPEINFO_GET_HIGHER_ARITY W mem ti
      = (wordIndex W mem ti TYPEINFO_OFFSET_FOR_PRED_ARITY : Int) ∧
    MR_TYPECTOR_GET_HOT_ARITY W (MR_TYPEINFO_GET_HIGHER_ARITY W mem ti) = a := by
  have h2a : integerRepresentable W (2 * a) := ⟨by have := hrep.1; omega, by have := hrep.2; omega⟩
  unfold MR_TYPECTOR_GET_HOT_ARITY MR_TYPEINFO_GET_HIGHER_ARITY
  rcases hslot with h | h
  · rw [h, toInteger_of_representable W _ h2a, toInteger_of_representable W _ h2a,
      Int.tdiv_eq_ediv (by omega) (by omega)]
    exact ⟨rfl, by omega⟩
  · rw [h, toInteger_of_representable W _ hrep, toInteger_of_representable W _ hrep,
      Int.tdiv_eq_ediv (by omega) (by omega)]
    exact ⟨rfl, by omega⟩

/-- Instance of the amended C5 on `exHigherOrderMem`, whose arity slot holds 2. -/
theorem get_higher_arity_raw_witness :
    ((0 : Int) ≤ 1 ∧ integerRepresentable 4 (2 * 1 + 1) ∧
      (wordIndex 4 exHigherOrderMem 1000 TYPEINFO_OFFSET_FOR_PRED_ARITY : Int) = 2 * 1) ∧
    (MR_TYPEINFO_GET_HIGHER_ARITY 4 exHigherOrderMem 1000
      = (wordIndex 4 exHigherOrderMem 1000 TYPEINFO_OFFSET_FOR_PRED_ARITY : Int) ∧
    MR_TYPECTOR_GET_HOT_ARITY 4 (MR_TYPEINFO_GET_HIGHER_ARITY 4 exHigherOrderMem 1000) = 1) :=
  ⟨⟨by decide, by unfold integerRepresentable; decide, by decide⟩,
    get_higher_arity_raw 4 exHigherOrderMem 1000 1 (by decide)
      (by unfold integerRepresentable; decide) (Or.inl (by decide))⟩

theorem wordAddr_ne (W : Nat) (p : Nat) (hW : 1 ≤ W) (i j : Int)
    (hi : 0 ≤ i ∧ i ≤ 8) (hj : 0 ≤ j ∧ j ≤ 8) (hne : i ≠ j) :
    wordAddr W p i ≠ wordAddr W p j := by
  intro h
  have hc : ((wordAddr W p i : Nat) : Int) = ((wordAddr W p j : Nat) : Int) := by rw [h]
  unfold wordAddr at hc
  rw [toWord_cast, toWord_cast] at hc
  have hd : (wordMod W : Int) ∣ (W : Int) * (i - j) := by
    have := Int.dvd_of_emod_eq_zero (Int.emod_eq_emod_iff_emod_sub_eq_zero.mp hc)
    have e : (p : Int) + (W : Int) * i - ((p : Int) + (W : Int) * j) = (W : Int) * (i - j) := by
      ring
    rwa [e] at this
  have hlt : 8 * W < wordMod W := Nat.lt_two_pow (8 * W)
  have hlt' : (8 : Int) * (W : Int) < (wordMod W : Int) := by exact_mod_cast hlt
  have hW' : (1 : Int) ≤ (W : Int) := by exact_mod_cast hW
  have habs : |(W : Int) * (i - j)| < (wordMod W : Int) := by
    rw [abs_lt]
    constructor <;> nlinarith
  have hz := Int.eq_zero_of_abs_lt_dvd hd habs
  rcases mul_eq_zero.mp hz with h0 | h0
  · omega
  · omega

/-- C6: the field offsets of a type_ctor_info are strictly increasing in the
order count (0), unify (1), index (2), compare (3), layout (4), functors (5),
one reserved slot (6), module name (7), type name (8); for every
type_ctor_info whose words are stored in that order the accessors
`MR_TYPE_CTOR_INFO_GET_TYPE_ARITY`, `..._GET_TYPE_CTOR_LAYOUT`,
`..._GET_TYPE_CTOR_FUNCTORS`, `..._GET_TYPE_MODULE_NAME` and
`..._GET_TYPE_NAME` return the corresponding field, and no two of them read
the same slot. -/
theorem type_ctor_info_field_layout (W : Nat) (hW : 1 ≤ W) (mem : Mem) (c : Nat)
    (count unify index compare layout functors reserved modname name : Nat)
    (h : laidOut W mem c
      [count, unify, index, compare, layout, functors, reserved, modname, name]) :
    [OFFSET_FOR_COUNT, OFFSET_FOR_UNIFY_PRED, OFFSET_FOR_INDEX_PRED, OFFSET_FOR_COMPARE_PRED,
      OFFSET_FOR_BASE_TYPE_LAYOUT, OFFSET_FOR_BASE_TYPE_FUNCTORS, 6,
      OFFSET_FOR_TYPE_MODULE_NAME, OFFSET_FOR_TYPE_NAME] = [0, 1, 2, 3, 4, 5, 6, 7, 8] ∧
    List.Pairwise (fun x y => x < y)
      [OFFSET_FOR_COUNT, OFFSET_FOR_UNIFY_PRED, OFFSET_FOR_INDEX_PRED, OFFSET_FOR_COMPARE_PRED,
        OFFSET_FOR_BASE_TYPE_LAYOUT, OFFSET_FOR_BASE_TYPE_FUNCTORS,
        OFFSET_FOR_TYPE_MODULE_NAME, OFFSET_FOR_TYPE_NAME] ∧
    MR_TYPE_CTOR_INFO_GET_TYPE_ARITY W mem c = count ∧
    MR_TYPE_CTOR_INFO_GET_TYPE_CTOR_LAYOUT W mem c = layout ∧
    MR_TYPE_CTOR_INFO_GET_TYPE_CTOR_FUNCTORS W mem c = functors ∧
    MR_TYPE_CTOR_INFO_GET_TYPE_MODULE_NAME W mem c = modname ∧
    MR_TYPE_CTOR_INFO_GET_TYPE_NAME W mem c = name ∧
    ([OFFSET_FOR_COUNT, OFFSET_FOR_BASE_TYPE_LAYOUT, OFFSET_FOR_BASE_TYPE_FUNCTORS,
      OFFSET_FOR_TYPE_MODULE_NAME, OFFSET_FOR_TYPE_NAME].map (wordAddr W c)).Nodup := by
  refine ⟨rfl, by decide, (h 0 (by simp)).1, (h 4 (by simp)).1, (h 5 (by simp)).1, (h 7 (by simp)).1,
    (h 8 (by simp)).1, ?_⟩
  have ne := wordAddr_ne W c hW
  simp only [List.map, List.nodup_cons, List.mem_cons, List.mem_singleton, List.not_mem_nil,
    not_or, not_false_eq_true, List.nodup_nil, and_true, OFFSET_FOR_COUNT,
    OFFSET_FOR_BASE_TYPE_LAYOUT, OFFSET_FOR_BASE_TYPE_FUNCTORS, OFFSET_FOR_TYPE_MODULE_NAME,
    OFFSET_FOR_TYPE_NAME]
  refine ⟨⟨?_, ?_, ?_, ?_⟩, ⟨?_, ?_, ?_⟩, ⟨?_, ?_⟩, ?_⟩ <;>
    exact ne _ _ (by omega) (by omega) (by omega)

/-- Instance of C6 on the type_ctor_info at address 1000 of `exTypeInfoMem`. -/
theorem type_ctor_info_field_layout_witness :
    (1 ≤ 4 ∧ laidOut 4 exTypeInfoMem 1000 [0, 7, 7, 7, 88, 99, 0, 2000, 3000]) ∧
    (MR_TYPE_CTOR_INFO_GET_TYPE_ARITY 4 exTypeInfoMem 1000 = 0 ∧
    MR_TYPE_CTOR_INFO_GET_TYPE_CTOR_LAYOUT 4 exTypeInfoMem 1000 = 88 ∧
    MR_TYPE_CTOR_INFO_GET_TYPE_CTOR_FUNCTORS 4 exTypeInfoMem 1000 = 99 ∧
    MR_TYPE_CTOR_INFO_GET_TYPE_MODULE_NAME 4 exTypeInfoMem 1000 = 2000 ∧
    MR_TYPE_CTOR_INFO_GET_TYPE_NAME 4 exTypeInfoMem 1000 = 3000) :=
  have hl : laidOut 4 exTypeInfoMem 1000 [0, 7, 7, 7, 88, 99, 0, 2000, 3000] := by
    intro i hi
    have hi9 : i < 9 := hi
    interval_cases i <;> decide
  have t := type_ctor_info_field_layout 4 (by decide) exTypeInfoMem 1000
    0 7 7 7 88 99 0 2000 3000 hl
  ⟨⟨by decide, hl⟩, t.2.2.1, t.2.2.2.1, t.2.2.2.2.1, t.2.2.2.2.2.1, t.2.2.2.2.2.2.1⟩

/-- C7: for every `TAGBITS` in {0, 1, 2, 3}, `make_typelayout_for_all_tags(Tag,
Value)` expands to exactly `2 ^ TAGBITS` layout entries, each of which is
`make_typelayout(Tag, Value)`. -/
theorem make_typelayout_for_all_tags_size (TAGBITS : Nat) (mkword : Nat → Nat → Nat)
    (mktag : Nat → Nat) (Tag Value : Nat) (hT : TAGBITS ≤ 3) :
    ∃ entries, make_typelayout_for_all_tags TAGBITS mkword mktag Tag Value = some entries ∧
      entries.length = 2 ^ TAGBITS ∧
      ∀ e ∈ entries, e = make_typelayout TAGBITS mkword mktag Tag Value := by
  interval_cases TAGBITS <;>
    exact ⟨_, rfl, rfl, by simp⟩

/-- Instance of C7 with three tag bits: eight entries. -/
theorem make_typelayout_for_all_tags_size_witness :
    (3 ≤ 3) ∧
    make_typelayout_for_all_tags 3 (fun t p => p + t) (fun t => t) 0 20
      = some [[20], [20], [20], [20], [20], [20], [20], [20]] ∧
    (∃ entries, make_typelayout_for_all_tags 3 (fun t p => p + t) (fun t => t) 0 20
        = some entries ∧ entries.length = 2 ^ 3 ∧
      ∀ e ∈ entries, e = make_typelayout 3 (fun t p => p + t) (fun t => t) 0 20) :=
  ⟨by decide, by decide,
    make_typelayout_for_all_tags_size 3 (fun t p => p + t) (fun t => t) 0 20 (by decide)⟩

theorem wordAddr_add (W : Nat) (p : Nat) (i j : Int) :
    wordAddr W (wordAddr W p i) j = wordAddr W p (i + j) := by
  obtain ⟨k, hk⟩ := toWord_sub_dvd W ((p : Int) + (W : Int) * i)
  unfold wordAddr
  exact toWord_eq_of_dvd W _ _ ⟨k, by rw [← hk]; ring⟩

/-- C8: for every simple vector laid out as the arity `n`, then `n` argument
words, then the functor name, then the functor tag,
`MR_TYPE_CTOR_LAYOUT_SIMPLE_VECTOR_ARITY` returns `n`,
`MR_TYPE_CTOR_LAYOUT_SIMPLE_VECTOR_ARGS` denotes the `n` argument words
(indices 1..n of the vector), `..._FUNCTOR_NAME` returns the name (index
`n + 1`) and `..._TAG` returns the tag (index `n + 2`), for every `n ≥ 0`. -/
theorem simple_vector_decoding (W : Nat) (mem : Mem) (V : Nat) (args : List Nat)
    (name tag : Nat) (h : laidOut W mem V (args.length :: (args ++ [name, tag]))) :
    MR_TYPE_CTOR_LAYOUT_SIMPLE_VECTOR_ARITY W mem V = args.length ∧
    (∀ j, j < args.length →
      wordIndex W mem (MR_TYPE_CTOR_LAYOUT_SIMPLE_VECTOR_ARGS W V) (j : Int) = args.getD j 0 ∧
      wordIndex W mem (MR_TYPE_CTOR_LAYOUT_SIMPLE_VECTOR_ARGS W V) (j : Int)
        = wordIndex W mem V (1 + (j : Int))) ∧
    MR_TYPE_CTOR_LAYOUT_SIMPLE_VECTOR_FUNCTOR_NAME W mem V = name ∧
    MR_TYPE_CTOR_LAYOUT_SIMPLE_VECTOR_FUNCTOR_NAME W mem V
      = wordIndex W mem V ((args.length : Int) + 1) ∧
    MR_TYPE_CTOR_LAYOUT_SIMPLE_VECTOR_TAG W mem V = tag ∧
    MR_TYPE_CTOR_LAYOUT_SIMPLE_VECTOR_TAG W mem V
      = wordIndex W mem V ((args.length : Int) + 2) := by
  have harity : MR_TYPE_CTOR_LAYOUT_SIMPLE_VECTOR_ARITY W mem V = args.length :=
    (h 0 (by simp)).1
  have hargs : ∀ j : Nat, wordIndex W mem (MR_TYPE_CTOR_LAYOUT_SIMPLE_VECTOR_ARGS W V) (j : Int)
      = wordIndex W mem V (1 + (j : Int)) := by
    intro j
    unfold MR_TYPE_CTOR_LAYOUT_SIMPLE_VECTOR_ARGS wordIndex
      MR_TYPE_CTOR_LAYOUT_SIMPLE_VECTOR_OFFSET_FOR_ARGS
    rw [wordAddr_add]
  have hname := h (args.length + 1) (by simp)
  have htag := h (args.length + 2) (by simp)
  rw [List.getD_cons_succ, List.getD_append_right _ _ _ _ (le_refl _)] at hname
  rw [List.getD_cons_succ, List.getD_append_right _ _ _ _ (by omega)] at htag
  have e1 : args.length - args.length = 0 := by omega
  have e2 : args.length + 1 - args.length = 1 := by omega
  rw [e1, List.getD_cons_zero] at hname
  rw [e2, List.getD_cons_succ, List.getD_cons_zero] at htag
  have c1 : ((args.length + 1 : Nat) : Int) = (args.length : Int) + 1 := by push_cast; ring
  have c2 : ((args.length + 2 : Nat) : Int) = (args.length : Int) + 2 := by push_cast; ring
  rw [c1] at hname
  rw [c2] at htag
  have nameIdx : MR_TYPE_CTOR_LAYOUT_SIMPLE_VECTOR_FUNCTOR_NAME W mem V
      = wordIndex W mem V ((args.length : Int) + 1) := by
    unfold MR_TYPE_CTOR_LAYOUT_SIMPLE_VECTOR_FUNCTOR_NAME
      MR_TYPE_CTOR_LAYOUT_SIMPLE_VECTOR_OFFSET_FOR_FUNCTOR_NAME
    rw [wordIndex_toWord, harity]
  have tagIdx : MR_TYPE_CTOR_LAYOUT_SIMPLE_VECTOR_TAG W mem V
      = wordIndex W mem V ((args.length : Int) + 2) := by
    unfold MR_TYPE_CTOR_LAYOUT_SIMPLE_VECTOR_TAG
      MR_TYPE_CTOR_LAYOUT_SIMPLE_VECTOR_OFFSET_FOR_FUNCTOR_TAG
    rw [wordIndex_toWord, harity, htag.1]
    exact toWord_of_lt W tag htag.2
  refine ⟨harity, ?_, ?_, nameIdx, ?_, tagIdx⟩
  · intro j hj
    refine ⟨?_, hargs j⟩
    have hj1 := (h (j + 1) (by simp; omega)).1
    rw [List.getD_cons_succ, List.getD_append _ _ _ _ hj] at hj1
    have c3 : ((j + 1 : Nat) : Int) = 1 + (j : Int) := by push_cast; ring
    rw [c3] at hj1
    rw [hargs j, hj1]
  · rw [nameIdx, hname.1]
  · rw [tagIdx, htag.1]

/-- Instance of C8 on the simple vector of arity 2 at address 3000 of
`exSimpleVectorMem`. -/
theorem simple_vector_decoding_witness :
    laidOut 4 exSimpleVectorMem 3000 ([1, 5000].length :: ([1, 5000] ++ [9000, 1])) ∧
    (MR_TYPE_CTOR_LAYOUT_SIMPLE_VECTOR_ARITY 4 exSimpleVectorMem 3000 = 2 ∧
    MR_TYPE_CTOR_LAYOUT_SIMPLE_VECTOR_FUNCTOR_NAME 4 exSimpleVectorMem 3000 = 9000 ∧
    MR_TYPE_CTOR_LAYOUT_SIMPLE_VECTOR_TAG 4 exSimpleVectorMem 3000 = 1) :=
  have hl : laidOut 4 exSimpleVectorMem 3000 ([1, 5000].length :: ([1, 5000] ++ [9000, 1])) := by
    intro i hi
    have hi5 : i < 5 := hi
    interval_cases i <;> decide
  have t := simple_vector_decoding 4 exSimpleVectorMem 3000 [1, 5000] 9000 1 hl
  ⟨hl, t.1, t.2.2.1, t.2.2.2.2.1⟩

/-- C9: for every typeclass_info `tci` with instance arity `N` (the word at
index 0 of the method table that word 0 of `tci` points to) and every `n`,
`MR_typeclass_info_superclass_info(tci, n)` and
`MR_typeclass_info_type_info(tci, n)` both return the word of `tci` at index
`N + n`; they are equal to each other and to
`MR_typeclass_info_arg_typeclass_info(tci, N + n)`. -/
theorem typeclass_info_arg_offset (W : Nat) (mem : Mem) (tci : Nat) (n : Int) :
    MR_typeclass_info_instance_arity W mem tci
      = toInteger W (wordIndex W mem (wordIndex W mem tci 0) 0) ∧
    MR_typeclass_info_superclass_info W mem tci n
      = wordIndex W mem tci (MR_typeclass_info_instance_arity W mem tci + n) ∧
    MR_typeclass_info_type_info W mem tci n
      = wordIndex W mem tci (MR_typeclass_info_instance_arity W mem tci + n) ∧
    MR_typeclass_info_superclass_info W mem tci n = MR_typeclass_info_type_info W mem tci n ∧
    MR_typeclass_info_superclass_info W mem tci n
      = MR_typeclass_info_arg_typeclass_info W mem tci
          (MR_typeclass_info_instance_arity W mem tci + n) := by
  have key : wordIndex W mem tci
      (toInteger W (MR_typeclass_info_instance_arity W mem tci + toInteger W n))
      = wordIndex W mem tci (MR_typeclass_info_instance_arity W mem tci + n) := by
    rw [wordIndex_toInteger]
    obtain ⟨k, hk⟩ := toInteger_sub_dvd W n
    exact wordIndex_congr W mem tci _ _ ⟨k, by rw [← hk]; ring⟩
  exact ⟨rfl, key, key, rfl, key⟩

/-- C10, evaluated on the discriminated-union type_functors table of
`exDuFunctorsMem` (indicator, count 2, vectors 7000 and 8000 from offset
`MR_TYPE_CTOR_FUNCTORS_DU_OFFSET_FOR_FUNCTORS_VECTOR`): the count is read
correctly, but `MR_TYPE_CTOR_FUNCTORS_DU_FUNCTOR_N(F, 1)` is the second stored
vector and not the first, `..._FUNCTOR_N(F, 2)` is the word after the table,
and the first stored vector is `..._FUNCTOR_N(F, 0)`. -/
theorem du_functor_n_off_by_one :
    laidOut 4 exDuFunctorsMem 2000 [0, 2, 7000, 8000] ∧
    MR_TYPE_CTOR_FUNCTORS_DU_NUM_FUNCTORS 4 exDuFunctorsMem 2000 = 2 ∧
    MR_TYPE_CTOR_FUNCTORS_DU_FUNCTOR_N 4 exDuFunctorsMem 2000 1 = 8000 ∧
    MR_TYPE_CTOR_FUNCTORS_DU_FUNCTOR_N 4 exDuFunctorsMem 2000 1 ≠ 7000 ∧
    MR_TYPE_CTOR_FUNCTORS_DU_FUNCTOR_N 4 exDuFunctorsMem 2000 2
      = exDuFunctorsMem (2000 + 4 * 4) ∧
    MR_TYPE_CTOR_FUNCTORS_DU_FUNCTOR_N 4 exDuFunctorsMem 2000 0 = 7000 := by
  refine ⟨?_, by decide, by decide, by decide, by decide, by decide⟩
  intro i hi
  have hi4 : i < 4 := hi
  interval_cases i <;> decide

/-! ## Vectors accessed through C structs -/

theorem alignUp_mul (W k : Nat) (hW : 1 ≤ W) : alignUp W (k * W) = W * k := by
  have h : (k * W + W - 1) / W = k := Nat.div_eq_of_lt_le (by omega) (by
    have : (k + 1) * W = k * W + W := by ring
    omega)
  unfold alignUp
  rw [h]

theorem alignUp_int (W sizeofInt : Nat) (h1 : 1 ≤ sizeofInt) (h2 : sizeofInt ≤ W) :
    alignUp W sizeofInt = W := by
  have h : (sizeofInt + W - 1) / W = 1 := Nat.div_eq_of_lt_le (by omega) (by omega)
  unfold alignUp
  rw [h, Nat.mul_one]

theorem fieldAddr_mul (W : Nat) (p k : Nat) : fieldAddr W p (W * k) = wordAddr W p (k : Int) := by
  unfold fieldAddr wordAddr
  push_cast
  rfl

theorem offsetof_EnumVector_num_sharers_eq (W sizeofInt : Nat) (h1 : 1 ≤ sizeofInt)
    (h2 : sizeofInt ≤ W) : offsetof_EnumVector_num_sharers W sizeofInt = W * 1 := by
  unfold offsetof_EnumVector_num_sharers
  rw [alignUp_int W sizeofInt h1 h2, Nat.mul_one]

theorem offsetof_EnumVector_functor1_eq (W sizeofInt : Nat) (h1 : 1 ≤ sizeofInt)
    (h2 : sizeofInt ≤ W) : offsetof_EnumVector_functor1 W sizeofInt = W * 2 := by
  have e : W * 1 + W = 2 * W := by ring
  unfold offsetof_EnumVector_functor1
  rw [offsetof_EnumVector_num_sharers_eq W sizeofInt h1 h2, e, alignUp_mul W 2 (by omega)]

theorem offsetof_ComplicatedVector_simple_vector1_eq (W : Nat) (hW : 1 ≤ W) :
    offsetof_ComplicatedVector_simple_vector1 W = W * 1 := by
  have e : offsetof_ComplicatedVector_num_sharers + W = 1 * W := by
    unfold offsetof_ComplicatedVector_num_sharers
    omega
  unfold offsetof_ComplicatedVector_simple_vector1
  rw [e, alignUp_mul W 1 hW]

/-- C11: for every enum vector laid out as the `enum_or_comp_const` flag, the
count `n` (`num_sharers`) and then `n` functor names,
`MR_TYPE_CTOR_LAYOUT_ENUM_VECTOR_FUNCTOR_NAME(v, i)` is the `i`-th name
(counting from 0) for every `0 ≤ i < n`, which is the word at index
`TYPE_CTOR_LAYOUT_ENUM_FUNCTOR_OFFSET + i`; and for every enumeration
type_functors table `F` whose offset-1 word references `v`,
`MR_TYPE_CTOR_FUNCTORS_ENUM_NUM_FUNCTORS(F) = n`.  The size of an `int` is
between 1 and the size of a word. -/
theorem enum_vector_decoding (W sizeofInt : Nat) (hI1 : 1 ≤ sizeofInt) (hI2 : sizeofInt ≤ W)
    (mem : Mem) (v flag : Nat) (names : List Nat)
    (h : laidOut W mem v (flag :: names.length :: names)) :
    (∀ i, i < names.length →
      MR_TYPE_CTOR_LAYOUT_ENUM_VECTOR_FUNCTOR_NAME W sizeofInt mem v (i : Int)
        = names.getD i 0 ∧
      MR_TYPE_CTOR_LAYOUT_ENUM_VECTOR_FUNCTOR_NAME W sizeofInt mem v (i : Int)
        = wordIndex W mem v (TYPE_CTOR_LAYOUT_ENUM_FUNCTOR_OFFSET + (i : Int))) ∧
    MR_TYPE_CTOR_LAYOUT_ENUM_VECTOR_NUM_FUNCTORS W sizeofInt mem v = names.length ∧
    (∀ F, wordIndex W mem F MR_TYPE_CTOR_FUNCTORS_ENUM_OFFSET_FOR_FUNCTORS_VECTOR = v →
      MR_TYPE_CTOR_FUNCTORS_ENUM_NUM_FUNCTORS W sizeofInt mem F = names.length) := by
  have hname : ∀ i : Nat, MR_TYPE_CTOR_LAYOUT_ENUM_VECTOR_FUNCTOR_NAME W sizeofInt mem v (i : Int)
      = wordIndex W mem v (TYPE_CTOR_LAYOUT_ENUM_FUNCTOR_OFFSET + (i : Int)) := by
    intro i
    unfold MR_TYPE_CTOR_LAYOUT_ENUM_VECTOR_FUNCTOR_NAME wordIndex
      TYPE_CTOR_LAYOUT_ENUM_FUNCTOR_OFFSET
    rw [offsetof_EnumVector_functor1_eq W sizeofInt hI1 hI2, fieldAddr_mul, wordAddr_add]
    rfl
  have hnum : MR_TYPE_CTOR_LAYOUT_ENUM_VECTOR_NUM_FUNCTORS W sizeofInt mem v = names.length := by
    unfold MR_TYPE_CTOR_LAYOUT_ENUM_VECTOR_NUM_FUNCTORS
    rw [offsetof_EnumVector_num_sharers_eq W sizeofInt hI1 hI2, fieldAddr_mul]
    exact (h 1 (by simp)).1
  refine ⟨?_, hnum, ?_⟩
  · intro i hi
    refine ⟨?_, hname i⟩
    have hi2 := (h (i + 2) (by simp; omega)).1
    rw [List.getD_cons_succ, List.getD_cons_succ] at hi2
    have c : ((i + 2 : Nat) : Int) = TYPE_CTOR_LAYOUT_ENUM_FUNCTOR_OFFSET + (i : Int) := by
      unfold TYPE_CTOR_LAYOUT_ENUM_FUNCTOR_OFFSET
      push_cast
      ring
    rw [c] at hi2
    rw [hname i, hi2]
  · intro F hF
    unfold MR_TYPE_CTOR_FUNCTORS_ENUM_NUM_FUNCTORS MR_TYPE_CTOR_FUNCTORS_ENUM_FUNCTORS
    rw [hF]
    exact hnum

/-- Instance of C11 on the enum vector at address 3000 of `exEnumMem`, with
4-byte words and a 4-byte `int`. -/
theorem enum_vector_decoding_witness :
    (1 ≤ 4 ∧ 4 ≤ 4 ∧ laidOut 4 exEnumMem 3000 (1 :: [9000, 9010, 9020].length
      :: [9000, 9010, 9020])) ∧
    MR_TYPE_CTOR_LAYOUT_ENUM_VECTOR_FUNCTOR_NAME 4 4 exEnumMem 3000 ((2 : Nat) : Int) = 9020 ∧
    MR_TYPE_CTOR_LAYOUT_ENUM_VECTOR_NUM_FUNCTORS 4 4 exEnumMem 3000 = 3 ∧
    MR_TYPE_CTOR_FUNCTORS_ENUM_NUM_FUNCTORS 4 4 exEnumMem 3040 = 3 :=
  have hl : laidOut 4 exEnumMem 3000 (1 :: [9000, 9010, 9020].length
      :: [9000, 9010, 9020]) := by
    intro i hi
    have hi5 : i < 5 := hi
    interval_cases i <;> decide
  have t := enum_vector_decoding 4 4 (by decide) (by decide) exEnumMem 3000 1
    [9000, 9010, 9020] hl
  ⟨⟨by decide, by decide, hl⟩, (t.1 2 (by decide)).1, t.2.1, t.2.2 3040 (by decide)⟩

/-- C12: for every complicated vector laid out as `num_sharers = m` followed
by `m` (possibly tagged) simple-vector words,
`MR_TYPE_CTOR_LAYOUT_COMPLICATED_VECTOR_NUM_SHARERS` returns `m` and, for every
secondary tag `i` with `0 ≤ i < m`,
`MR_TYPE_CTOR_LAYOUT_COMPLICATED_VECTOR_GET_SIMPLE_VECTOR(v, i)` is the `i`-th
stored word, the word at index `1 + i`, with `strip_tag` applied to it. -/
theorem complicated_vector_decoding (W : Nat) (hW : 1 ≤ W) (strip_tag : Nat → Nat)
    (mem : Mem) (v : Nat) (vectors : List Nat)
    (h : laidOut W mem v (vectors.length :: vectors)) :
    MR_TYPE_CTOR_LAYOUT_COMPLICATED_VECTOR_NUM_SHARERS W mem v = vectors.length ∧
    (∀ i, i < vectors.length →
      MR_TYPE_CTOR_LAYOUT_COMPLICATED_VECTOR_GET_SIMPLE_VECTOR W strip_tag mem v (i : Int)
        = strip_tag (vectors.getD i 0) ∧
      MR_TYPE_CTOR_LAYOUT_COMPLICATED_VECTOR_GET_SIMPLE_VECTOR W strip_tag mem v (i : Int)
        = strip_tag (wordIndex W mem v (1 + (i : Int)))) := by
  have hvec : ∀ i : Nat,
      MR_TYPE_CTOR_LAYOUT_COMPLICATED_VECTOR_GET_SIMPLE_VECTOR W strip_tag mem v (i : Int)
        = strip_tag (wordIndex W mem v (1 + (i : Int))) := by
    intro i
    unfold MR_TYPE_CTOR_LAYOUT_COMPLICATED_VECTOR_GET_SIMPLE_VECTOR wordIndex
    rw [offsetof_ComplicatedVector_simple_vector1_eq W hW, fieldAddr_mul, wordAddr_add]
    rfl
  constructor
  · unfold MR_TYPE_CTOR_LAYOUT_COMPLICATED_VECTOR_NUM_SHARERS
      offsetof_ComplicatedVector_num_sharers
    have e : (0 : Nat) = W * 0 := by simp
    rw [e, fieldAddr_mul]
    exact (h 0 (by simp)).1
  · intro i hi
    refine ⟨?_, hvec i⟩
    have hi1 := (h (i + 1) (by simp; omega)).1
    rw [List.getD_cons_succ] at hi1
    have c : ((i + 1 : Nat) : Int) = 1 + (i : Int) := by push_cast; ring
    rw [c] at hi1
    rw [hvec i, hi1]

/-- Instance of C12 on the complicated vector at address 3000 of
`exComplicatedMem`, with 4-byte words and a `strip_tag` that clears the two
low bits. -/
theorem complicated_vector_decoding_witness :
    (1 ≤ 4 ∧ laidOut 4 exComplicatedMem 3000 ([7002, 8002].length :: [7002, 8002])) ∧
    MR_TYPE_CTOR_LAYOUT_COMPLICATED_VECTOR_NUM_SHARERS 4 exComplicatedMem 3000 = 2 ∧
    MR_TYPE_CTOR_LAYOUT_COMPLICATED_VECTOR_GET_SIMPLE_VECTOR 4 (fun w => w - w % 4)
      exComplicatedMem 3000 ((1 : Nat) : Int) = 8000 :=
  have hl : laidOut 4 exComplicatedMem 3000 ([7002, 8002].length :: [7002, 8002]) := by
    intro i hi
    have hi3 : i < 3 := hi
    interval_cases i <;> decide
  have t := complicated_vector_decoding 4 (by decide) (fun w => w - w % 4) exComplicatedMem
    3000 [7002, 8002] hl
  ⟨⟨by decide, hl⟩, t.1, (t.2 1 (by decide)).1⟩

/-- C13, as stated, fails: the word 0 is classified as a variable placeholder
by `TYPEINFO_IS_VARIABLE`, and 0 is not in the range `[1, 1024]`. -/
theorem typeinfo_is_variable_zero :
    (0 : Nat) < wordMod 4 ∧ TYPEINFO_IS_VARIABLE 4 ((0 : Nat) : Int) = true ∧
    ¬ (1 ≤ (0 : Nat) ∧ (0 : Nat) ≤ TYPE_CTOR_LAYOUT_MAX_VARINT) := by
  decide

/-- C13, amended: every word that `TYPEINFO_IS_VARIABLE` classifies as a
variable placeholder is an integer in the range `[0, 1024]`; the word 0 is
classified as one for every word size, and every other such word is in
`[1, TYPE_CTOR_LAYOUT_MAX_VARINT] = [1, 1024]`. -/
theorem typeinfo_is_variable_range (W : Nat) (t : Nat) (ht : t < wordMod W)
    (hvar : TYPEINFO_IS_VARIABLE W (t : Int) = true) :
    TYPE_CTOR_LAYOUT_MAX_VARINT = 1024 ∧
    t ≤ TYPE_CTOR_LAYOUT_MAX_VARINT ∧
    (t ≠ 0 → 1 ≤ t ∧ t ≤ TYPE_CTOR_LAYOUT_MAX_VARINT) ∧
    TYPEINFO_IS_VARIABLE W 0 = true := by
  have et : toWord W (t : Int) = t := toWord_of_lt W t ht
  have e0 : toWord W 0 = 0 := by
    have := toWord_of_lt W 0 (wordMod_pos W)
    simpa using this
  have hle : t ≤ TYPE_CTOR_LAYOUT_MAX_VARINT := by
    unfold TYPEINFO_IS_VARIABLE at hvar
    rw [et] at hvar
    exact of_decide_eq_true hvar
  refine ⟨rfl, hle, fun hne => ⟨by omega, hle⟩, ?_⟩
  unfold TYPEINFO_IS_VARIABLE
  rw [e0]
  decide

/-- Instance of the amended C13 on a 32-bit machine at the word 7. -/
theorem typeinfo_is_variable_range_witness :
    (7 < wordMod 4 ∧ TYPEINFO_IS_VARIABLE 4 ((7 : Nat) : Int) = true) ∧
    (7 ≤ TYPE_CTOR_LAYOUT_MAX_VARINT ∧ (7 ≠ 0 → 1 ≤ 7 ∧ 7 ≤ TYPE_CTOR_LAYOUT_MAX_VARINT)) :=
  have t := typeinfo_is_variable_range 4 7 (by decide) (by decide)
  ⟨⟨by decide, by decide⟩, t.2.1, t.2.2.1⟩

/-- C14: the three-way comparison result codes are `COMPARE_EQUAL = 0`,
`COMPARE_LESS = 1` and `COMPARE_GREATER = 2`, and are pairwise distinct. -/
theorem compare_codes :
    COMPARE_EQUAL = 0 ∧ COMPARE_LESS = 1 ∧ COMPARE_GREATER = 2 ∧
    COMPARE_EQUAL ≠ COMPARE_LESS ∧ COMPARE_EQUAL ≠ COMPARE_GREATER ∧
    COMPARE_LESS ≠ COMPARE_GREATER := by
  decide

/-- C15: for every univ stored as the two-word cell (type_info `t`, data
`v`), the word at `UNIV_OFFSET_FOR_TYPEINFO` is `t` and the word at
`UNIV_OFFSET_FOR_DATA` is `v`; the two offsets are 0 and 1, hence distinct,
and the two slots have distinct addresses. -/
theorem univ_projections (W : Nat) (hW : 1 ≤ W) (mem : Mem) (u t v : Nat)
    (h : laidOut W mem u [t, v]) :
    wordIndex W mem u UNIV_OFFSET_FOR_TYPEINFO = t ∧
    wordIndex W mem u UNIV_OFFSET_FOR_DATA = v ∧
    UNIV_OFFSET_FOR_TYPEINFO = 0 ∧ UNIV_OFFSET_FOR_DATA = 1 ∧
    UNIV_OFFSET_FOR_TYPEINFO ≠ UNIV_OFFSET_FOR_DATA ∧
    wordAddr W u UNIV_OFFSET_FOR_TYPEINFO ≠ wordAddr W u UNIV_OFFSET_FOR_DATA := by
  refine ⟨(h 0 (by simp)).1, (h 1 (by simp)).1, rfl, rfl, by decide, ?_⟩
  exact wordAddr_ne W u hW _ _ (by decide) (by decide) (by decide)

/-- Instance of C15 on the univ at address 1000 of `exUnivMem`. -/
theorem univ_projections_witness :
    (1 ≤ 4 ∧ laidOut 4 exUnivMem 1000 [5000, 42]) ∧
    wordIndex 4 exUnivMem 1000 UNIV_OFFSET_FOR_TYPEINFO = 5000 ∧
    wordIndex 4 exUnivMem 1000 UNIV_OFFSET_FOR_DATA = 42 :=
  have hl : laidOut 4 exUnivMem 1000 [5000, 42] := by
    intro i hi
    have hi2 : i < 2 := hi
    interval_cases i <;> decide
  have t := univ_projections 4 (by decide) exUnivMem 1000 5000 42 hl
  ⟨⟨by decide, hl⟩, t.1, t.2.1⟩

theorem toWord_toInteger (W : Nat) (x : Int) : toWord W (toInteger W x) = toWord W x :=
  toWord_eq_of_dvd W _ _ (toInteger_sub_dvd W x)

/-- Two different slots of a block that lies within the address space have
different addresses. -/
theorem wordAddr_ne_of_fit (W : Nat) (p : Nat) (hW : 1 ≤ W) (i j : Nat) (hij : i < j)
    (hj : W * (j + 1) ≤ wordMod W) : wordAddr W p (i : Int) ≠ wordAddr W p (j : Int) := by
  intro h
  have hc : ((wordAddr W p (i : Int) : Nat) : Int) = ((wordAddr W p (j : Int) : Nat) : Int) := by
    rw [h]
  unfold wordAddr at hc
  rw [toWord_cast, toWord_cast] at hc
  obtain ⟨d, hd⟩ : ∃ d, j = i + d := ⟨j - i, by omega⟩
  have hdpos : 1 ≤ d := by omega
  have hdvd : (wordMod W : Int) ∣ (((W * d : Nat)) : Int) := by
    have := Int.dvd_of_emod_eq_zero (Int.emod_eq_emod_iff_emod_sub_eq_zero.mp hc.symm)
    have e : (p : Int) + (W : Int) * (j : Int) - ((p : Int) + (W : Int) * (i : Int))
        = (((W * d : Nat)) : Int) := by
      rw [hd]
      push_cast
      ring
    rwa [e] at this
  have hdvd' : wordMod W ∣ W * d := by exact_mod_cast hdvd
  have h1 : W * d ≤ W * j := Nat.mul_le_mul_left W (by omega)
  have h2 : W * j < W * (j + 1) := by
    have : W * (j + 1) = W * j + W := by ring
    omega
  have h3 : 1 ≤ W * d := Nat.mul_pos hW hdpos
  have := Nat.le_of_dvd h3 hdvd'
  omega

/-- C20: for every higher-order type_info laid out as the shared constructor,
the arity `n` and the arguments `arg_1 .. arg_n`,
`MR_TYPEINFO_GET_HIGHER_ARITY` returns the word `n` stored at offset
`TYPEINFO_OFFSET_FOR_PRED_ARITY = 1`, and the arguments start at offset
`TYPEINFO_OFFSET_FOR_PRED_ARGS = 2 = OFFSET_FOR_ARG_TYPE_INFOS + 1`, so the
arity slot is none of the argument slots.  Words have at least 2 bytes and
the type_info lies within the address space. -/
theorem higher_order_type_info_layout (W : Nat) (hW : 2 ≤ W) (mem : Mem) (ti ctor : Nat)
    (args : List Nat) (h : laidOut W mem ti (ctor :: args.length :: args))
    (hfit : W * (args.length + 2) ≤ wordMod W) :
    TYPEINFO_OFFSET_FOR_PRED_ARITY = 1 ∧
    TYPEINFO_OFFSET_FOR_PRED_ARGS = 2 ∧
    TYPEINFO_OFFSET_FOR_PRED_ARGS = OFFSET_FOR_ARG_TYPE_INFOS + 1 ∧
    wordIndex W mem ti TYPEINFO_OFFSET_FOR_PRED_ARITY = args.length ∧
    MR_TYPEINFO_GET_HIGHER_ARITY W mem ti = (args.length : Int) ∧
    (∀ j, j < args.length →
      wordIndex W mem ti (TYPEINFO_OFFSET_FOR_PRED_ARGS + (j : Int)) = args.getD j 0) ∧
    (∀ j : Nat, TYPEINFO_OFFSET_FOR_PRED_ARITY ≠ TYPEINFO_OFFSET_FOR_PRED_ARGS + (j : Int)) ∧
    (∀ j, j < args.length →
      wordAddr W ti TYPEINFO_OFFSET_FOR_PRED_ARITY
        ≠ wordAddr W ti (TYPEINFO_OFFSET_FOR_PRED_ARGS + (j : Int))) := by
  have harity : wordIndex W mem ti TYPEINFO_OFFSET_FOR_PRED_ARITY = args.length :=
    (h 1 (by simp)).1
  have hrep : integerRepresentable W (args.length : Int) := by
    have h2 : 2 * (args.length + 2) ≤ W * (args.length + 2) := Nat.mul_le_mul_right _ hW
    have h3 : 2 * (args.length + 2) ≤ wordMod W := le_trans h2 hfit
    have h4 : (2 : Int) * ((args.length : Int) + 2) ≤ (wordMod W : Int) := by exact_mod_cast h3
    unfold integerRepresentable
    constructor <;> omega
  refine ⟨rfl, rfl, rfl, harity, ?_, ?_, ?_, ?_⟩
  · unfold MR_TYPEINFO_GET_HIGHER_ARITY
    rw [harity]
    exact toInteger_of_representable W _ hrep
  · intro j hj
    have hj2 := (h (j + 2) (by simp; omega)).1
    rw [List.getD_cons_succ, List.getD_cons_succ] at hj2
    have c : ((j + 2 : Nat) : Int) = TYPEINFO_OFFSET_FOR_PRED_ARGS + (j : Int) := by
      unfold TYPEINFO_OFFSET_FOR_PRED_ARGS
      push_cast
      ring
    rw [c] at hj2
    exact hj2
  · intro j
    unfold TYPEINFO_OFFSET_FOR_PRED_ARITY TYPEINFO_OFFSET_FOR_PRED_ARGS
    omega
  · intro j hj
    have c : TYPEINFO_OFFSET_FOR_PRED_ARGS + (j : Int) = ((j + 2 : Nat) : Int) := by
      unfold TYPEINFO_OFFSET_FOR_PRED_ARGS
      push_cast
      ring
    have c1 : TYPEINFO_OFFSET_FOR_PRED_ARITY = ((1 : Nat) : Int) := rfl
    rw [c, c1]
    refine wordAddr_ne_of_fit W ti (by omega) 1 (j + 2) (by omega) ?_
    have : W * (j + 2 + 1) ≤ W * (args.length + 2) := Nat.mul_le_mul_left W (by omega)
    omega

/-- Instance of C20 on the higher-order type_info of arity 2 at address 1000
of `exHigherOrderArgsMem`. -/
theorem higher_order_type_info_layout_witness :
    (2 ≤ 4 ∧ laidOut 4 exHigherOrderArgsMem 1000 (4096 :: [6000, 6100].length :: [6000, 6100]) ∧
      4 * ([6000, 6100].length + 2) ≤ wordMod 4) ∧
    MR_TYPEINFO_GET_HIGHER_ARITY 4 exHigherOrderArgsMem 1000 = 2 ∧
    wordIndex 4 exHigherOrderArgsMem 1000 (TYPEINFO_OFFSET_FOR_PRED_ARGS + ((1 : Nat) : Int))
      = 6100 :=
  have hl : laidOut 4 exHigherOrderArgsMem 1000
      (4096 :: [6000, 6100].length :: [6000, 6100]) := by
    intro i hi
    have hi4 : i < 4 := hi
    interval_cases i <;> decide
  have t := higher_order_type_info_layout 4 (by decide) exHigherOrderArgsMem 1000 4096
    [6000, 6100] hl (by decide)
  ⟨⟨by decide, hl, by decide⟩, t.2.2.2.2.1, t.2.2.2.2.2.1 1 (by decide)⟩

/-! ## The descriptor functions -/

/-- C16: for every binding context with `n` arguments and every variable
placeholder `k` with `1 ≤ k ≤ n`, `MR_make_type_info(context, k, allocated)`
returns the `k`-th argument of the context itself, and the allocation list
unchanged. -/
theorem make_type_info_variable (c : Nat) (args : List Descriptor) (k : Nat)
    (allocated : List Descriptor) (h1 : 1 ≤ k) (h2 : k ≤ args.length) :
    ∃ arg, args[k - 1]? = some arg ∧
      MR_make_type_info (.app c args) (.var k) allocated = some (arg, allocated) := by
  have hlt : k - 1 < args.length := by omega
  refine ⟨args[k - 1], List.getElem?_eq_getElem hlt, ?_⟩
  rw [MR_make_type_info]
  simp only [h1, if_true, List.getElem?_eq_getElem hlt]

/-- Instance of C16: in the context `list(int)`, the placeholder 1 yields the
descriptor of `int` and allocates nothing. -/
theorem make_type_info_variable_witness :
    (1 ≤ 1 ∧ 1 ≤ [Descriptor.app 10 []].length) ∧
    MR_make_type_info (.app 20 [.app 10 []]) (.var 1) []
      = some (.app 10 [], []) := by
  obtain ⟨arg, harg, hres⟩ :=
    make_type_info_variable 20 [.app 10 []] 1 [] (by decide) (by decide)
  have e : arg = .app 10 [] := (Option.some.inj harg).symm
  rw [e] at hres
  exact ⟨⟨by decide, by decide⟩, hres⟩

theorem allConcrete_getElem (ds : List Descriptor) :
    ∀ (i : Nat) (d : Descriptor), Descriptor.allConcrete ds = true → ds[i]? = some d →
      d.isConcrete = true := by
  induction ds with
  | nil => intro i d _ h; simp at h
  | cons x xs ih =>
    intro i d hall h
    rw [Descriptor.allConcrete, Bool.and_eq_true] at hall
    cases i with
    | zero =>
      simp only [List.getElem?_cons_zero, Option.some.injEq] at h
      rw [← h]
      exact hall.1
    | succ j =>
      simp only [List.getElem?_cons_succ] at h
      exact ih j d hall.2 h

mutual
/-- Building a template against a concrete binding context gives a concrete
descriptor. -/
theorem make_type_info_concrete (ctx : Descriptor) (hctx : ctx.isConcrete = true) :
    ∀ (t : Descriptor) (al : List Descriptor) (r : Descriptor) (al1 : List Descriptor),
      MR_make_type_info ctx t al = some (r, al1) → r.isConcrete = true
  | .var k, al, r, al1, h => by
    cases ctx with
    | var j => simp [Descriptor.isConcrete] at hctx
    | app c args =>
      rw [MR_make_type_info] at h
      rw [Descriptor.isConcrete] at hctx
      by_cases hk : 1 ≤ k
      · simp only [hk, if_true] at h
        cases harg : args[k - 1]? with
        | none => simp [harg] at h
        | some arg =>
          simp only [harg, Option.some.injEq, Prod.mk.injEq] at h
          rw [← h.1]
          exact allConcrete_getElem args (k - 1) arg hctx harg
      · simp [hk] at h
  | .app c [], al, r, al1, h => by
    rw [MR_make_type_info] at h
    simp only [Option.some.injEq, Prod.mk.injEq] at h
    rw [← h.1]
    rfl
  | .app c (a :: as), al, r, al1, h => by
    rw [MR_make_type_info] at h
    cases hargs : MR_make_type_info_args ctx (a :: as) al with
    | none => simp [hargs] at h
    | some p =>
      obtain ⟨rs, al2⟩ := p
      simp only [hargs, Option.some.injEq, Prod.mk.injEq] at h
      rw [← h.1, Descriptor.isConcrete]
      exact make_type_info_args_concrete ctx hctx (a :: as) al rs al2 hargs
/-- Building the argument templates against a concrete binding context gives
concrete descriptors. -/
theorem make_type_info_args_concrete (ctx : Descriptor) (hctx : ctx.isConcrete = true) :
    ∀ (ts : List Descriptor) (al : List Descriptor) (rs : List Descriptor)
      (al1 : List Descriptor),
      MR_make_type_info_args ctx ts al = some (rs, al1) → Descriptor.allConcrete rs = true
  | [], al, rs, al1, h => by
    rw [MR_make_type_info_args] at h
    simp only [Option.some.injEq, Prod.mk.injEq] at h
    rw [← h.1]
    rfl
  | t :: ts, al, rs, al1, h => by
    rw [MR_make_type_info_args] at h
    cases h1 : MR_make_type_info ctx t al with
    | none => simp [h1] at h
    | some p =>
      obtain ⟨r, al2⟩ := p
      simp only [h1] at h
      cases h2 : MR_make_type_info_args ctx ts al2 with
      | none => simp [h2] at h
      | some q =>
        obtain ⟨rs2, al3⟩ := q
        simp only [h2, Option.some.injEq, Prod.mk.injEq] at h
        rw [← h.1, Descriptor.allConcrete, Bool.and_eq_true]
        exact ⟨make_type_info_concrete ctx hctx t al r al2 h1,
          make_type_info_args_concrete ctx hctx ts al2 rs2 al3 h2⟩
end

theorem collapse_equivalences_result (reg : Registry) :
    ∀ (n : Nat) (d r : Descriptor), d.isConcrete = true →
      MR_collapse_equivalences reg n d = some r →
      r.isConcrete = true ∧
      ∃ c args, r = .app c args ∧ (reg c).indicator ≠ MR_TYPE_CTOR_FUNCTORS_EQUIV := by
  intro n
  induction n with
  | zero =>
    intro d r hd h
    cases d with
    | var k => simp [Descriptor.isConcrete] at hd
    | app c args =>
      rw [MR_collapse_equivalences] at h
      by_cases hi : (reg c).indicator = MR_TYPE_CTOR_FUNCTORS_EQUIV
      · simp [hi] at h
      · simp only [hi, if_false, Option.some.injEq] at h
        rw [← h]
        exact ⟨hd, c, args, rfl, hi⟩
  | succ m ih =>
    intro d r hd h
    cases d with
    | var k => simp [Descriptor.isConcrete] at hd
    | app c args =>
      rw [MR_collapse_equivalences] at h
      by_cases hi : (reg c).indicator = MR_TYPE_CTOR_FUNCTORS_EQUIV
      · simp only [hi, if_true] at h
        cases hm : MR_make_type_info (.app c args) (reg c).equivType [] with
        | none => simp [hm] at h
        | some p =>
          obtain ⟨d1, al⟩ := p
          simp only [hm] at h
          exact ih d1 r (make_type_info_concrete (.app c args) hd _ _ _ _ hm) h
      · simp only [hi, if_false, Option.some.injEq] at h
        rw [← h]
        exact ⟨hd, c, args, rfl, hi⟩

/-- C18: for every concrete type_info `d` on which
`MR_collapse_equivalences` returns, the result has a type constructor, and
the functors indicator of that constructor is not
`MR_TYPE_CTOR_FUNCTORS_EQUIV`. -/
theorem collapse_equivalences_not_equiv (reg : Registry) (maxEquiv : Nat) (d r : Descriptor)
    (hd : d.isConcrete = true) (hret : MR_collapse_equivalences reg maxEquiv d = some r) :
    ∃ c args, r = .app c args ∧ (reg c).indicator ≠ MR_TYPE_CTOR_FUNCTORS_EQUIV :=
  (collapse_equivalences_result reg maxEquiv d r hd hret).2

/-- Instance of C18: the equivalence `alias == list(int)` of `exRegistry`
collapses to `list(int)`, whose constructor is a discriminated union. -/
theorem collapse_equivalences_not_equiv_witness :
    ((Descriptor.app 30 []).isConcrete = true ∧
      MR_collapse_equivalences exRegistry 100 (.app 30 []) = some (.app 20 [.app 10 []])) ∧
    (∃ c args, Descriptor.app 20 [.app 10 []] = .app c args ∧
      (exRegistry c).indicator ≠ MR_TYPE_CTOR_FUNCTORS_EQUIV) :=
  ⟨⟨rfl, rfl⟩,
    collapse_equivalences_not_equiv exRegistry 100 (.app 30 []) (.app 20 [.app 10 []]) rfl rfl⟩

theorem swapCode_eq_equal (r : Int) : swapCode r = COMPARE_EQUAL ↔ r = COMPARE_EQUAL := by
  unfold swapCode COMPARE_EQUAL COMPARE_LESS COMPARE_GREATER
  split_ifs <;> omega

theorem compareNat_swap (x y : Nat) : compareNat y x = swapCode (compareNat x y) := by
  unfold compareNat swapCode COMPARE_EQUAL COMPARE_LESS COMPARE_GREATER
  split_ifs <;> omega

theorem compareNames_swap : ∀ (s t : List Char),
    compareNames t s = swapCode (compareNames s t)
  | [], [] => by decide
  | [], _ :: _ => by simp only [compareNames]; decide
  | _ :: _, [] => by simp only [compareNames]; decide
  | a :: as, b :: bs => by
    simp only [compareNames]
    rw [compareNat_swap a.toNat b.toNat]
    by_cases h : compareNat a.toNat b.toNat = COMPARE_EQUAL
    · have h1 : swapCode (compareNat a.toNat b.toNat) = COMPARE_EQUAL :=
        (swapCode_eq_equal _).mpr h
      simp only [h, h1, ne_eq, not_true_eq_false, if_false]
      exact compareNames_swap as bs
    · have h1 : ¬ swapCode (compareNat a.toNat b.toNat) = COMPARE_EQUAL :=
        fun e => h ((swapCode_eq_equal _).mp e)
      simp only [h, h1, ne_eq, not_false_eq_true, if_true]

theorem swapCode_lex (a b : Int) :
    (if swapCode a ≠ COMPARE_EQUAL then swapCode a else swapCode b)
      = swapCode (if a ≠ COMPARE_EQUAL then a else b) := by
  by_cases h : a = COMPARE_EQUAL
  · have h1 := (swapCode_eq_equal a).mpr h
    rw [if_neg (not_not.mpr h1), if_neg (not_not.mpr h)]
  · have h1 : swapCode a ≠ COMPARE_EQUAL := fun e => h ((swapCode_eq_equal a).mp e)
    rw [if_pos h1, if_pos h]

theorem compareConstructors_swap (c1 c2 : ConstructorDescriptor) :
    compareConstructors c2 c1 = swapCode (compareConstructors c1 c2) := by
  unfold compareConstructors
  rw [compareNames_swap c1.moduleName.toList c2.moduleName.toList,
    compareNames_swap c1.typeName.toList c2.typeName.toList, compareNat_swap c1.arity c2.arity,
    swapCode_lex (compareNames c1.typeName.toList c2.typeName.toList), swapCode_lex]

theorem compareArgs_swap (cmp : Descriptor → Descriptor → Option Int)
    (hcmp : ∀ x y, cmp y x = (cmp x y).map swapCode) :
    ∀ (xs ys : List Descriptor), compareArgs cmp ys xs = (compareArgs cmp xs ys).map swapCode
  | [], [] => by simp only [compareArgs]; decide
  | [], _ :: _ => by simp only [compareArgs]; decide
  | _ :: _, [] => by simp only [compareArgs]; decide
  | x :: xs, y :: ys => by
    simp only [compareArgs]
    rw [hcmp x y]
    cases hxy : cmp x y with
    | none => rfl
    | some r =>
      simp only [Option.map_some']
      by_cases h : r = COMPARE_EQUAL
      · have h1 := (swapCode_eq_equal r).mpr h
        simp only [h1, h, if_true]
        exact compareArgs_swap cmp hcmp xs ys
      · have h1 : ¬ swapCode r = COMPARE_EQUAL := fun e => h ((swapCode_eq_equal r).mp e)
        simp only [h1, h, if_false, Option.map_some']

theorem higher_order_kinds (g : Globals) (c1 c2 : Nat) (hne : c1 ≠ c2)
    (hho : (MR_TYPE_CTOR_INFO_IS_HO g c1 && MR_TYPE_CTOR_INFO_IS_HO g c2) = true) :
    (MR_TYPE_CTOR_INFO_IS_HO_PRED g c1 = true ∧ MR_TYPE_CTOR_INFO_IS_HO_PRED g c2 = false) ∨
    (MR_TYPE_CTOR_INFO_IS_HO_PRED g c1 = false ∧ MR_TYPE_CTOR_INFO_IS_HO_PRED g c2 = true) := by
  simp only [MR_TYPE_CTOR_INFO_IS_HO, MR_TYPE_CTOR_INFO_IS_HO_PRED, MR_TYPE_CTOR_INFO_HO_FUNC,
    MR_TYPE_CTOR_INFO_HO_PRED, Bool.and_eq_true, Bool.or_eq_true, beq_iff_eq,
    beq_eq_false_iff_ne, ne_eq] at hho ⊢
  obtain ⟨h1, h2⟩ := hho
  rcases h1 with h1 | h1 <;> rcases h2 with h2 | h2
  · exact absurd (h1.trans h2.symm) hne
  · right
    exact ⟨fun e => hne (e.trans h2.symm), h2⟩
  · left
    exact ⟨h1, fun e => hne (h1.trans e.symm)⟩
  · exact absurd (h1.trans h2.symm) hne

/-- Exchanging the operands of the comparator exchanges `COMPARE_LESS` and
`COMPARE_GREATER`, and keeps `COMPARE_EQUAL` and a fatal error. -/
theorem compare_type_info_swap (reg : Registry) (g : Globals) (maxEquiv : Nat) :
    ∀ (fuel : Nat) (t1 t2 : Descriptor),
      MR_compare_type_info reg g maxEquiv fuel t2 t1
        = (MR_compare_type_info reg g maxEquiv fuel t1 t2).map swapCode := by
  intro fuel
  induction fuel with
  | zero =>
    intro t1 t2
    rw [MR_compare_type_info, MR_compare_type_info]
    rfl
  | succ n ih =>
    intro t1 t2
    rw [MR_compare_type_info, MR_compare_type_info]
    cases h1 : MR_collapse_equivalences reg maxEquiv t1 with
    | none =>
      cases h2 : MR_collapse_equivalences reg maxEquiv t2 with
      | none => rfl
      | some d2 => cases d2 <;> rfl
    | some d1 =>
      cases h2 : MR_collapse_equivalences reg maxEquiv t2 with
      | none => cases d1 <;> rfl
      | some d2 =>
        cases d1 with
        | var k1 => cases d2 <;> rfl
        | app c1 args1 =>
          cases d2 with
          | var k2 => rfl
          | app c2 args2 =>
            simp only []
            by_cases hc : c1 = c2
            · subst hc
              simp only [if_true]
              rw [compareNat_swap args1.length args2.length]
              by_cases hl : compareNat args1.length args2.length = COMPARE_EQUAL
              · have hl1 := (swapCode_eq_equal _).mpr hl
                rw [if_neg (not_not.mpr hl1), if_neg (not_not.mpr hl)]
                exact compareArgs_swap _ ih args1 args2
              · have hl1 : swapCode (compareNat args1.length args2.length) ≠ COMPARE_EQUAL :=
                  fun e => hl ((swapCode_eq_equal _).mp e)
                rw [if_pos hl1, if_pos hl]
                rfl
            · have hc1 : ¬ c2 = c1 := fun e => hc e.symm
              rw [if_neg hc, if_neg hc1, Bool.and_comm]
              by_cases hho : (MR_TYPE_CTOR_INFO_IS_HO g c1 && MR_TYPE_CTOR_INFO_IS_HO g c2) = true
              · rw [if_pos hho, if_pos hho]
                rcases higher_order_kinds g c1 c2 hc hho with ⟨k1, k2⟩ | ⟨k1, k2⟩
                · rw [k1, k2]
                  decide
                · rw [k1, k2]
                  decide
              · rw [if_neg hho, if_neg hho, compareConstructors_swap (reg c1) (reg c2)]
                rfl

/-- C17: antisymmetry of the comparator: for all type_infos `a` and `b`,
`MR_compare_type_info(a, b) = COMPARE_LESS` if and only if
`MR_compare_type_info(b, a) = COMPARE_GREATER`. -/
theorem compare_type_info_antisymmetric (reg : Registry) (g : Globals) (maxEquiv fuel : Nat)
    (a b : Descriptor) :
    MR_compare_type_info reg g maxEquiv fuel a b = some COMPARE_LESS ↔
      MR_compare_type_info reg g maxEquiv fuel b a = some COMPARE_GREATER := by
  rw [compare_type_info_swap reg g maxEquiv fuel a b]
  constructor
  · intro h
    rw [h]
    rfl
  · intro h
    cases hab : MR_compare_type_info reg g maxEquiv fuel a b with
    | none => rw [hab] at h; simp at h
    | some r =>
      rw [hab] at h
      simp only [Option.map_some', Option.some.injEq] at h
      congr 1
      unfold swapCode COMPARE_LESS COMPARE_GREATER at h
      unfold COMPARE_LESS
      split_ifs at h <;> omega

/-- The comparator on the builtin types of `exRegistry`: `float` is before
`int`, in both directions, and the equivalence `alias` is equal to
`list(int)`. -/
theorem compare_type_info_examples :
    MR_compare_type_info exRegistry exGlobals 100 5 (.app 11 []) (.app 10 [])
      = some COMPARE_LESS ∧
    MR_compare_type_info exRegistry exGlobals 100 5 (.app 10 []) (.app 11 [])
      = some COMPARE_GREATER ∧
    MR_compare_type_info exRegistry exGlobals 100 5 (.app 30 []) (.app 20 [.app 10 []])
      = some COMPARE_EQUAL := by
  decide

theorem builtinRepresentation_known (value : Nat)
    (h : builtinRepresentation value ≠ .MR_DATAREP_UNKNOWN) :
    value ∈ [MR_TYPE_CTOR_LAYOUT_INT_VALUE, MR_TYPE_CTOR_LAYOUT_CHARACTER_VALUE,
      MR_TYPE_CTOR_LAYOUT_FLOAT_VALUE, MR_TYPE_CTOR_LAYOUT_STRING_VALUE,
      MR_TYPE_CTOR_LAYOUT_PREDICATE_VALUE, MR_TYPE_CTOR_LAYOUT_UNIV_VALUE,
      MR_TYPE_CTOR_LAYOUT_VOID_VALUE, MR_TYPE_CTOR_LAYOUT_ARRAY_VALUE,
      MR_TYPE_CTOR_LAYOUT_TYPEINFO_VALUE, MR_TYPE_CTOR_LAYOUT_C_POINTER_VALUE,
      MR_TYPE_CTOR_LAYOUT_TYPECLASSINFO_VALUE] := by
  by_contra hne
  simp only [List.mem_cons, List.mem_singleton, List.not_mem_nil, or_false, not_or] at hne
  obtain ⟨h1, h2, h3, h4, h5, h6, h7, h8, h9, h10, h11⟩ := hne
  apply h
  unfold builtinRepresentation
  rw [if_neg h1, if_neg h2, if_neg h3, if_neg h4, if_neg h5, if_neg h6, if_neg h7, if_neg h8,
    if_neg h9, if_neg h10, if_neg h11]

/-- C19: for every functors indicator and every layout entry,
`MR_categorize_data` returns exactly one value of
`enum MR_DataRepresentation`; a pair that matches no row of the decision
table, in particular one whose indicator is none of `DU`, `ENUM`, `EQUIV`,
`SPECIAL`, `NO_TAG` and `UNIV`, yields `MR_DATAREP_UNKNOWN`; and an `ENUM`
indicator yields `MR_DATAREP_ENUM` whatever the layout entry. -/
theorem categorize_data_total (functors_indicator : Int) (layout_entry : LayoutEntry) :
    (∃! r, MR_categorize_data functors_indicator layout_entry = r) ∧
    (functors_indicator ∉ [MR_TYPE_CTOR_FUNCTORS_DU, MR_TYPE_CTOR_FUNCTORS_ENUM,
        MR_TYPE_CTOR_FUNCTORS_EQUIV, MR_TYPE_CTOR_FUNCTORS_SPECIAL,
        MR_TYPE_CTOR_FUNCTORS_NO_TAG, MR_TYPE_CTOR_FUNCTORS_UNIV] →
      MR_categorize_data functors_indicator layout_entry = .MR_DATAREP_UNKNOWN) ∧
    (MR_categorize_data functors_indicator layout_entry ≠ .MR_DATAREP_UNKNOWN →
      (functors_indicator = MR_TYPE_CTOR_FUNCTORS_DU ∧
        ((∃ arity, layout_entry = .complicated arity) ∨ layout_entry = .simple ∨
          ∃ value, layout_entry = .constant value)) ∨
      functors_indicator = MR_TYPE_CTOR_FUNCTORS_ENUM ∨
      functors_indicator = MR_TYPE_CTOR_FUNCTORS_NO_TAG ∨
      (functors_indicator = MR_TYPE_CTOR_FUNCTORS_EQUIV ∧
        ∃ target, layout_entry = .equivalence target) ∨
      (functors_indicator = MR_TYPE_CTOR_FUNCTORS_SPECIAL ∧
        ∃ value, layout_entry = .constant value ∧
          value ∈ [MR_TYPE_CTOR_LAYOUT_INT_VALUE, MR_TYPE_CTOR_LAYOUT_CHARACTER_VALUE,
            MR_TYPE_CTOR_LAYOUT_FLOAT_VALUE, MR_TYPE_CTOR_LAYOUT_STRING_VALUE,
            MR_TYPE_CTOR_LAYOUT_PREDICATE_VALUE, MR_TYPE_CTOR_LAYOUT_UNIV_VALUE,
            MR_TYPE_CTOR_LAYOUT_VOID_VALUE, MR_TYPE_CTOR_LAYOUT_ARRAY_VALUE,
            MR_TYPE_CTOR_LAYOUT_TYPEINFO_VALUE, MR_TYPE_CTOR_LAYOUT_C_POINTER_VALUE,
            MR_TYPE_CTOR_LAYOUT_TYPECLASSINFO_VALUE])) ∧
    MR_categorize_data MR_TYPE_CTOR_FUNCTORS_ENUM layout_entry = .MR_DATAREP_ENUM := by
  refine ⟨⟨_, rfl, fun r h => h.symm⟩, ?_, ?_, ?_⟩
  · intro h
    simp only [List.mem_cons, List.mem_singleton, List.not_mem_nil, or_false, not_or] at h
    obtain ⟨h0, h1, h2, h3, h4, _⟩ := h
    unfold MR_categorize_data
    rw [if_neg h0, if_neg h1, if_neg h4, if_neg h2, if_neg h3]
  · intro h
    unfold MR_categorize_data at h
    by_cases h0 : functors_indicator = MR_TYPE_CTOR_FUNCTORS_DU
    · left
      refine ⟨h0, ?_⟩
      rw [if_pos h0] at h
      cases layout_entry with
      | constant value => exact Or.inr (Or.inr ⟨value, rfl⟩)
      | simple => exact Or.inr (Or.inl rfl)
      | complicated arity => exact Or.inl ⟨arity, rfl⟩
      | equivalence target => exact absurd rfl h
      | noTag => exact absurd rfl h
    · rw [if_neg h0] at h
      by_cases h1 : functors_indicator = MR_TYPE_CTOR_FUNCTORS_ENUM
      · exact Or.inr (Or.inl h1)
      · rw [if_neg h1] at h
        by_cases h4 : functors_indicator = MR_TYPE_CTOR_FUNCTORS_NO_TAG
        · exact Or.inr (Or.inr (Or.inl h4))
        · rw [if_neg h4] at h
          by_cases h2 : functors_indicator = MR_TYPE_CTOR_FUNCTORS_EQUIV
          · refine Or.inr (Or.inr (Or.inr (Or.inl ⟨h2, ?_⟩)))
            rw [if_pos h2] at h
            cases layout_entry with
            | equivalence target => exact ⟨target, rfl⟩
            | constant value => exact absurd rfl h
            | simple => exact absurd rfl h
            | complicated arity => exact absurd rfl h
            | noTag => exact absurd rfl h
          · rw [if_neg h2] at h
            by_cases h3 : functors_indicator = MR_TYPE_CTOR_FUNCTORS_SPECIAL
            · refine Or.inr (Or.inr (Or.inr (Or.inr ⟨h3, ?_⟩)))
              rw [if_pos h3] at h
              cases layout_entry with
              | constant value => exact ⟨value, rfl, builtinRepresentation_known value h⟩
              | equivalence target => exact absurd rfl h
              | simple => exact absurd rfl h
              | complicated arity => exact absurd rfl h
              | noTag => exact absurd rfl h
            · rw [if_neg h3] at h
              exact absurd rfl h
  · rfl

/-- The classifier on layout entries of the kinds of the decision table. -/
theorem categorize_data_examples :
    MR_categorize_data MR_TYPE_CTOR_FUNCTORS_DU (.complicated 2) = .MR_DATAREP_COMPLICATED ∧
    MR_categorize_data MR_TYPE_CTOR_FUNCTORS_DU (.complicated 0)
      = .MR_DATAREP_COMPLICATED_CONST ∧
    MR_categorize_data MR_TYPE_CTOR_FUNCTORS_DU .simple = .MR_DATAREP_SIMPLE ∧
    MR_categorize_data MR_TYPE_CTOR_FUNCTORS_EQUIV (.equivalence (.var 1))
      = .MR_DATAREP_EQUIV_VAR ∧
    MR_categorize_data MR_TYPE_CTOR_FUNCTORS_EQUIV (.equivalence (.app 20 [.app 10 []]))
      = .MR_DATAREP_EQUIV ∧
    MR_categorize_data MR_TYPE_CTOR_FUNCTORS_SPECIAL
      (.constant MR_TYPE_CTOR_LAYOUT_INT_VALUE) = .MR_DATAREP_INT ∧
    MR_categorize_data MR_TYPE_CTOR_FUNCTORS_SPECIAL
      (.constant MR_TYPE_CTOR_LAYOUT_UNUSED_VALUE) = .MR_DATAREP_UNKNOWN ∧
    MR_categorize_data 6 .simple = .MR_DATAREP_UNKNOWN := by
  decide

/-! ## Layout tag 3, and the higher-order encoding as a sentinel -/

/-- C21: equivalence and no-tag layout entries share the layout tag 3, and
both vectors start with the field `is_no_tag`; for every vector `v`,
`MR_TYPE_CTOR_LAYOUT_EQUIV_IS_EQUIV(v)` holds if and only if
`MR_TYPE_CTOR_LAYOUT_NO_TAG_VECTOR_IS_NO_TAG(v)` is zero, so exactly one of the
two classifications holds. -/
theorem equiv_no_tag_exclusive (W sizeofInt : Nat) (bigEndian : Bool) (mem : Mem) (v : Nat) :
    TYPE_CTOR_LAYOUT_EQUIV_TAG = 3 ∧ TYPE_CTOR_LAYOUT_NO_TAG = 3 ∧
    TYPE_CTOR_LAYOUT_EQUIV_TAG = TYPE_CTOR_LAYOUT_NO_TAG ∧
    offsetof_EquivVector_is_no_tag = offsetof_NoTagVector_is_no_tag ∧
    (MR_TYPE_CTOR_LAYOUT_EQUIV_IS_EQUIV W sizeofInt bigEndian mem v ≠ 0 ↔
      MR_TYPE_CTOR_LAYOUT_NO_TAG_VECTOR_IS_NO_TAG W sizeofInt bigEndian mem v = 0) ∧
    ((MR_TYPE_CTOR_LAYOUT_EQUIV_IS_EQUIV W sizeofInt bigEndian mem v ≠ 0 ∧
        ¬ MR_TYPE_CTOR_LAYOUT_NO_TAG_VECTOR_IS_NO_TAG W sizeofInt bigEndian mem v ≠ 0) ∨
      (¬ MR_TYPE_CTOR_LAYOUT_EQUIV_IS_EQUIV W sizeofInt bigEndian mem v ≠ 0 ∧
        MR_TYPE_CTOR_LAYOUT_NO_TAG_VECTOR_IS_NO_TAG W sizeofInt bigEndian mem v ≠ 0)) := by
  have key : MR_TYPE_CTOR_LAYOUT_EQUIV_IS_EQUIV W sizeofInt bigEndian mem v ≠ 0 ↔
      MR_TYPE_CTOR_LAYOUT_NO_TAG_VECTOR_IS_NO_TAG W sizeofInt bigEndian mem v = 0 := by
    unfold MR_TYPE_CTOR_LAYOUT_EQUIV_IS_EQUIV MR_TYPE_CTOR_LAYOUT_NO_TAG_VECTOR_IS_NO_TAG
      offsetof_EquivVector_is_no_tag offsetof_NoTagVector_is_no_tag
    split_ifs with h
    · simp [h]
    · simp [h]
  refine ⟨rfl, rfl, rfl, rfl, key, ?_⟩
  by_cases h : MR_TYPE_CTOR_LAYOUT_NO_TAG_VECTOR_IS_NO_TAG W sizeofInt bigEndian mem v = 0
  · exact Or.inl ⟨key.mpr h, not_not.mpr h⟩
  · exact Or.inr ⟨fun e => h (key.mp e), h⟩

/-- The two vectors of `exTag3Mem`, read with a 4-byte `int` on a
little-endian machine: the one at 3000 is a no-tag vector and the one at 3040
an equivalence vector. -/
theorem equiv_no_tag_examples :
    MR_TYPE_CTOR_LAYOUT_NO_TAG_VECTOR_IS_NO_TAG 4 4 false exTag3Mem 3000 = 1 ∧
    MR_TYPE_CTOR_LAYOUT_EQUIV_IS_EQUIV 4 4 false exTag3Mem 3000 = 0 ∧
    MR_TYPE_CTOR_LAYOUT_NO_TAG_VECTOR_IS_NO_TAG 4 4 false exTag3Mem 3040 = 0 ∧
    MR_TYPE_CTOR_LAYOUT_EQUIV_IS_EQUIV 4 4 false exTag3Mem 3040 = 1 := by
  decide

/-- C22: `MR_TYPECTOR_IS_HIGHER_ORDER` and `TYPEINFO_IS_VARIABLE` are the same
predicate: they agree on every word, so every encoding
`MR_TYPECTOR_MAKE_PRED(a)` or `MR_TYPECTOR_MAKE_FUNC(a)` that is recognised as
higher-order is also classified as a variable placeholder, and no word is
accepted by one and rejected by the other. -/
theorem is_higher_order_eq_is_variable (W : Nat) (T a : Int) :
    MR_TYPECTOR_IS_HIGHER_ORDER W T = TYPEINFO_IS_VARIABLE W T ∧
    MR_TYPECTOR_IS_HIGHER_ORDER = TYPEINFO_IS_VARIABLE ∧
    (MR_TYPECTOR_IS_HIGHER_ORDER W (MR_TYPECTOR_MAKE_PRED W a : Int) = true →
      TYPEINFO_IS_VARIABLE W (MR_TYPECTOR_MAKE_PRED W a : Int) = true) ∧
    (MR_TYPECTOR_IS_HIGHER_ORDER W (MR_TYPECTOR_MAKE_FUNC W a : Int) = true →
      TYPEINFO_IS_VARIABLE W (MR_TYPECTOR_MAKE_FUNC W a : Int) = true) ∧
    ¬ (∃ t : Int, MR_TYPECTOR_IS_HIGHER_ORDER W t ≠ TYPEINFO_IS_VARIABLE W t) := by
  have h : ∀ (w : Nat) (t : Int), MR_TYPECTOR_IS_HIGHER_ORDER w t = TYPEINFO_IS_VARIABLE w t :=
    fun _ _ => rfl
  refine ⟨h W T, ?_, ?_, ?_, ?_⟩
  · funext w t
    exact h w t
  · intro e
    rw [← h]
    exact e
  · intro e
    rw [← h]
    exact e
  · rintro ⟨t, ht⟩
    exact ht (h W t)

/-- The encodings of a predicate and of a function of arity 3 are both
recognised as higher-order and classified as variable placeholders, on a
32-bit machine. -/
theorem is_higher_order_examples :
    MR_TYPECTOR_IS_HIGHER_ORDER 4 (MR_TYPECTOR_MAKE_PRED 4 3 : Int) = true ∧
    TYPEINFO_IS_VARIABLE 4 (MR_TYPECTOR_MAKE_PRED 4 3 : Int) = true ∧
    MR_TYPECTOR_IS_HIGHER_ORDER 4 (MR_TYPECTOR_MAKE_FUNC 4 3 : Int) = true ∧
    TYPEINFO_IS_VARIABLE 4 (MR_TYPECTOR_MAKE_FUNC 4 3 : Int) = true := by
  decide

theorem toWord_make_pred (W : Nat) (a : Int) :
    toWord W (MR_TYPECTOR_MAKE_PRED W a : Int) = MR_TYPECTOR_MAKE_PRED W a :=
  toWord_of_lt W _ (toWord_lt W _)

theorem toWord_make_func (W : Nat) (a : Int) :
    toWord W (MR_TYPECTOR_MAKE_FUNC W a : Int) = MR_TYPECTOR_MAKE_FUNC W a :=
  toWord_of_lt W _ (toWord_lt W _)

/-- C23: for every arity `a ≥ 0` whose encoding does not overflow,
`MR_TYPECTOR_IS_HIGHER_ORDER(MR_TYPECTOR_MAKE_PRED(a))` holds if and only if
`a ≤ 512`, and `MR_TYPECTOR_IS_HIGHER_ORDER(MR_TYPECTOR_MAKE_FUNC(a))` holds if
and only if `a ≤ 511`. -/
theorem hot_recognised_range (W : Nat) (a : Int) (ha : 0 ≤ a)
    (hrep : integerRepresentable W (2 * a + 1)) :
    (MR_TYPECTOR_IS_HIGHER_ORDER W (MR_TYPECTOR_MAKE_PRED W a : Int) = true ↔ a ≤ 512) ∧
    (MR_TYPECTOR_IS_HIGHER_ORDER W (MR_TYPECTOR_MAKE_FUNC W a : Int) = true ↔ a ≤ 511) := by
  have h2a : integerRepresentable W (2 * a) := ⟨by have := hrep.1; omega, by have := hrep.2; omega⟩
  have hp := make_pred_val W a ha h2a
  have hf := make_func_val W a ha hrep
  unfold MR_TYPECTOR_IS_HIGHER_ORDER TYPE_CTOR_LAYOUT_MAX_VARINT
  rw [toWord_make_pred, toWord_make_func, decide_eq_true_iff, decide_eq_true_iff]
  constructor <;> constructor <;> intro h <;> omega

/-- Instance of C23 on a 32-bit machine at arity 512: the predicate encoding
1024 is recognised and the function encoding 1025 is not. -/
theorem hot_recognised_range_witness :
    ((0 : Int) ≤ 512 ∧ integerRepresentable 4 (2 * 512 + 1)) ∧
    MR_TYPECTOR_IS_HIGHER_ORDER 4 (MR_TYPECTOR_MAKE_PRED 4 512 : Int) = true ∧
    MR_TYPECTOR_IS_HIGHER_ORDER 4 (MR_TYPECTOR_MAKE_FUNC 4 512 : Int) = false :=
  have t := hot_recognised_range 4 512 (by decide) (by unfold integerRepresentable; decide)
  ⟨⟨by decide, by unfold integerRepresentable; decide⟩, t.1.mpr (by decide),
    Bool.eq_false_iff.mpr (fun e => absurd (t.2.mp e) (by decide))⟩

/-- C24: the higher-order encoding is injective and ordered by arity first,
then kind: for all arities `a, b ≥ 0` whose encodings do not overflow,
`MR_TYPECTOR_MAKE_PRED(a)` is never `MR_TYPECTOR_MAKE_FUNC(b)`,
`MR_TYPECTOR_MAKE_PRED` and `MR_TYPECTOR_MAKE_FUNC` are each injective, and
`MR_TYPECTOR_MAKE_PRED(a) < MR_TYPECTOR_MAKE_FUNC(a) < MR_TYPECTOR_MAKE_PRED(a+1)`. -/
theorem hot_encoding_injective (W : Nat) (a b : Int) (ha : 0 ≤ a) (hb : 0 ≤ b)
    (hra : integerRepresentable W (2 * a + 1)) (hrb : integerRepresentable W (2 * b + 1)) :
    MR_TYPECTOR_MAKE_PRED W a ≠ MR_TYPECTOR_MAKE_FUNC W b ∧
    (MR_TYPECTOR_MAKE_PRED W a = MR_TYPECTOR_MAKE_PRED W b → a = b) ∧
    (MR_TYPECTOR_MAKE_FUNC W a = MR_TYPECTOR_MAKE_FUNC W b → a = b) ∧
    MR_TYPECTOR_MAKE_PRED W a < MR_TYPECTOR_MAKE_FUNC W a ∧
    (integerRepresentable W (2 * (a + 1)) →
      MR_TYPECTOR_MAKE_FUNC W a < MR_TYPECTOR_MAKE_PRED W (a + 1)) := by
  have h2a : integerRepresentable W (2 * a) := ⟨by have := hra.1; omega, by have := hra.2; omega⟩
  have h2b : integerRepresentable W (2 * b) := ⟨by have := hrb.1; omega, by have := hrb.2; omega⟩
  have pa := make_pred_val W a ha h2a
  have pb := make_pred_val W b hb h2b
  have fa := make_func_val W a ha hra
  have fb := make_func_val W b hb hrb
  refine ⟨?_, ?_, ?_, ?_, ?_⟩
  · intro e
    have : ((MR_TYPECTOR_MAKE_PRED W a : Nat) : Int) = ((MR_TYPECTOR_MAKE_FUNC W b : Nat) : Int) := by
      rw [e]
    omega
  · intro e
    have : ((MR_TYPECTOR_MAKE_PRED W a : Nat) : Int) = ((MR_TYPECTOR_MAKE_PRED W b : Nat) : Int) := by
      rw [e]
    omega
  · intro e
    have : ((MR_TYPECTOR_MAKE_FUNC W a : Nat) : Int) = ((MR_TYPECTOR_MAKE_FUNC W b : Nat) : Int) := by
      rw [e]
    omega
  · have : ((MR_TYPECTOR_MAKE_PRED W a : Nat) : Int) < ((MR_TYPECTOR_MAKE_FUNC W a : Nat) : Int) := by
      omega
    exact_mod_cast this
  · intro hnext
    have pn := make_pred_val W (a + 1) (by omega) hnext
    have : ((MR_TYPECTOR_MAKE_FUNC W a : Nat) : Int)
        < ((MR_TYPECTOR_MAKE_PRED W (a + 1) : Nat) : Int) := by
      omega
    exact_mod_cast this

/-- Instance of C24 on a 32-bit machine at the arities 3 and 5. -/
theorem hot_encoding_injective_witness :
    ((0 : Int) ≤ 3 ∧ (0 : Int) ≤ 5 ∧ integerRepresentable 4 (2 * 3 + 1) ∧
      integerRepresentable 4 (2 * 5 + 1) ∧ integerRepresentable 4 (2 * (3 + 1))) ∧
    MR_TYPECTOR_MAKE_PRED 4 3 ≠ MR_TYPECTOR_MAKE_FUNC 4 5 ∧
    MR_TYPECTOR_MAKE_PRED 4 3 < MR_TYPECTOR_MAKE_FUNC 4 3 ∧
    MR_TYPECTOR_MAKE_FUNC 4 3 < MR_TYPECTOR_MAKE_PRED 4 (3 + 1) :=
  have t := hot_encoding_injective 4 3 5 (by decide) (by decide)
    (by unfold integerRepresentable; decide) (by unfold integerRepresentable; decide)
  ⟨⟨by decide, by decide, by unfold integerRepresentable; decide,
      by unfold integerRepresentable; decide, by unfold integerRepresentable; decide⟩,
    t.1, t.2.2.2.1, t.2.2.2.2 (by unfold integerRepresentable; decide)⟩

/-! ## Method tables and the constructor projection -/

/-- C25: method lookup in a typeclass_info is not offset by the arity, and
slot 0 of the method table is the arity: for every typeclass_info `tci`, the
instance arity is the word `MR_typeclass_info_class_method(tci, 0)` read as an
`Integer`, and for every `n`, `MR_typeclass_info_class_method(tci, n)` is the
word at index `n` of the table referenced by word 0 of `tci`; it is the same
in every memory with the same word 0 of `tci` and the same word at that index
of the table, whatever the instance arity and the other words of `tci`. -/
theorem class_method_not_offset (W : Nat) (mem : Mem) (tci : Nat) (n : Int) :
    MR_typeclass_info_instance_arity W mem tci
      = toInteger W (MR_typeclass_info_class_method W mem tci 0) ∧
    (MR_typeclass_info_class_method W mem tci 0 < wordMod W →
      toWord W (MR_typeclass_info_instance_arity W mem tci)
        = MR_typeclass_info_class_method W mem tci 0) ∧
    MR_typeclass_info_class_method W mem tci n
      = wordIndex W mem (wordIndex W mem tci 0) n ∧
    (∀ mem2 : Mem, wordIndex W mem2 tci 0 = wordIndex W mem tci 0 →
      wordIndex W mem2 (wordIndex W mem tci 0) n = wordIndex W mem (wordIndex W mem tci 0) n →
      MR_typeclass_info_class_method W mem2 tci n
        = MR_typeclass_info_class_method W mem tci n) := by
  refine ⟨rfl, ?_, rfl, ?_⟩
  · intro h
    unfold MR_typeclass_info_instance_arity MR_typeclass_info_class_method at *
    rw [toWord_toInteger]
    exact toWord_of_lt W _ h
  · intro mem2 h0 hn
    unfold MR_typeclass_info_class_method
    rw [h0, hn]

/-- The typeclass_infos of `exTypeClassInfoMem` and `exTypeClassInfoMem2`
share the method table address and the methods, and differ in the instance
arity and in every other word: method 1 is the same in both, and is the word
at index 1 of the table, not at index arity + 1. -/
theorem class_method_examples :
    MR_typeclass_info_instance_arity 4 exTypeClassInfoMem 1000 = 2 ∧
    MR_typeclass_info_instance_arity 4 exTypeClassInfoMem2 1000 = 3 ∧
    MR_typeclass_info_class_method 4 exTypeClassInfoMem 1000 0 = 2 ∧
    MR_typeclass_info_class_method 4 exTypeClassInfoMem 1000 1 = 6000 ∧
    MR_typeclass_info_class_method 4 exTypeClassInfoMem2 1000 1 = 6000 ∧
    MR_typeclass_info_class_method 4 exTypeClassInfoMem 1000 2 = 6100 ∧
    MR_typeclass_info_superclass_info 4 exTypeClassInfoMem 1000 1 = 33 := by
  decide

/-- C26: `MR_TYPEINFO_GET_TYPE_CTOR_INFO` is idempotent exactly on zero-arity
constructors: for every type_ctor_info `c` whose address differs from its
arity word, `MR_TYPEINFO_GET_TYPE_CTOR_INFO(c) = c` if and only if
`MR_TYPE_CTOR_INFO_GET_TYPE_ARITY(c) = 0`; when the arity is `n > 0` the
projection applied to `c` returns the word `n`, so for a type_info `ti` whose
first word is the non-null address `c`, the projection gives `c` and
applying it twice gives `n`, not `c`. -/
theorem get_type_ctor_info_idempotent_iff (W : Nat) (mem : Mem) (c : Nat)
    (hc : c < wordMod W) (hne : MR_TYPE_CTOR_INFO_GET_TYPE_ARITY W mem c ≠ c) :
    (MR_TYPEINFO_GET_TYPE_CTOR_INFO W mem c = c ↔
      MR_TYPE_CTOR_INFO_GET_TYPE_ARITY W mem c = 0) ∧
    (MR_TYPE_CTOR_INFO_GET_TYPE_ARITY W mem c ≠ 0 →
      MR_TYPEINFO_GET_TYPE_CTOR_INFO W mem c = MR_TYPE_CTOR_INFO_GET_TYPE_ARITY W mem c ∧
      ∀ ti, wordIndex W mem ti 0 = c → c ≠ 0 →
        MR_TYPEINFO_GET_TYPE_CTOR_INFO W mem ti = c ∧
        MR_TYPEINFO_GET_TYPE_CTOR_INFO W mem (MR_TYPEINFO_GET_TYPE_CTOR_INFO W mem ti)
          = MR_TYPE_CTOR_INFO_GET_TYPE_ARITY W mem c ∧
        MR_TYPEINFO_GET_TYPE_CTOR_INFO W mem (MR_TYPEINFO_GET_TYPE_CTOR_INFO W mem ti) ≠ c) := by
  have harity : MR_TYPE_CTOR_INFO_GET_TYPE_ARITY W mem c = wordIndex W mem c 0 := rfl
  have hzero : wordIndex W mem c 0 = 0 → MR_TYPEINFO_GET_TYPE_CTOR_INFO W mem c = c := by
    intro hz
    unfold MR_TYPEINFO_GET_TYPE_CTOR_INFO
    rw [hz, if_neg (by simp)]
    exact toWord_of_lt W c hc
  have hpos : wordIndex W mem c 0 ≠ 0 →
      MR_TYPEINFO_GET_TYPE_CTOR_INFO W mem c = wordIndex W mem c 0 := by
    intro hnz
    unfold MR_TYPEINFO_GET_TYPE_CTOR_INFO
    rw [if_pos hnz]
  rw [harity] at hne ⊢
  constructor
  · constructor
    · intro h
      by_contra hnz
      rw [hpos hnz] at h
      exact hne h
    · exact hzero
  · intro hnz
    refine ⟨hpos hnz, ?_⟩
    intro ti hti hc0
    have h1 : MR_TYPEINFO_GET_TYPE_CTOR_INFO W mem ti = c := by
      unfold MR_TYPEINFO_GET_TYPE_CTOR_INFO
      rw [hti, if_pos hc0]
    rw [h1, hpos hnz]
    exact ⟨rfl, rfl, hne⟩

/-- Instance of C26 on `exArityOneMem`: the type_ctor_info at address 1000
has arity 1, the projection of the type_info at 1040 is 1000, and the
projection of 1000 is the word 1. -/
theorem get_type_ctor_info_idempotent_iff_witness :
    (1000 < wordMod 4 ∧ (1000 : Nat) ≠ 0 ∧
      MR_TYPE_CTOR_INFO_GET_TYPE_ARITY 4 exArityOneMem 1000 ≠ 1000 ∧
      MR_TYPE_CTOR_INFO_GET_TYPE_ARITY 4 exArityOneMem 1000 ≠ 0 ∧
      wordIndex 4 exArityOneMem 1040 0 = 1000) ∧
    MR_TYPEINFO_GET_TYPE_CTOR_INFO 4 exArityOneMem 1000 = 1 ∧
    MR_TYPEINFO_GET_TYPE_CTOR_INFO 4 exArityOneMem 1040 = 1000 ∧
    MR_TYPEINFO_GET_TYPE_CTOR_INFO 4 exArityOneMem
      (MR_TYPEINFO_GET_TYPE_CTOR_INFO 4 exArityOneMem 1040) ≠ 1000 :=
  have t := (get_type_ctor_info_idempotent_iff 4 exArityOneMem 1000 (by decide)
    (by decide)).2 (by decide)
  ⟨⟨by decide, by decide, by decide, by decide, by decide⟩, t.1,
    (t.2 1040 (by decide) (by decide)).1, (t.2 1040 (by decide) (by decide)).2.2⟩

end Mercury
